import Mathlib

/-!
# Verification of the aster grid-bot core against its specification

This file gives a shallow embedding, over exact rational arithmetic, of the
pure core of the `bot` package (`src/bot/state.py`, `src/bot/grid.py` and the
pure decision logic of `src/bot/mvp_bot.py`) and proves or refutes the
specification claims about it.

Python `float` values are idealised as `ℚ`; Python `int` as `ℤ`/`ℕ`; Python
`dict` as an ordered association list with Python's insertion/removal
semantics; functions that raise exceptions return `Except`/`Option`.
-/

namespace Aster

/-! ## Python `dict` model

A Python `dict` is insertion-ordered.  Assigning to an existing key replaces
the value in place; assigning a fresh key appends; `pop` removes the entry.
Keys are unique in every dict that Python can actually build.
-/

/-- `d[k]` lookup (`dict.get`): first binding of key `k`. -/
def dget {K V : Type} [DecidableEq K] (k : K) : List (K × V) → Option V
  | [] => none
  | p :: t => if p.1 = k then some p.2 else dget k t

/-- `d[k] = v` assignment: replace the binding in place if the key is
present, otherwise append it. -/
def dinsert {K V : Type} [DecidableEq K] (k : K) (v : V) : List (K × V) → List (K × V)
  | [] => [(k, v)]
  | p :: t => if p.1 = k then (k, v) :: t else p :: dinsert k v t

/-- `d.pop(k, None)` (discarding the returned value): remove the binding of
`k` if present. -/
def derase {K V : Type} [DecidableEq K] (k : K) (l : List (K × V)) : List (K × V) :=
  l.filter (fun p => p.1 ≠ k)

theorem dget_dinsert_self {K V : Type} [DecidableEq K] (k : K) (v : V) (l : List (K × V)) :
    dget k (dinsert k v l) = some v := by
  induction l with
  | nil => simp [dget, dinsert]
  | cons p t ih =>
      by_cases h : p.1 = k
      · simp [dinsert, h, dget]
      · simp [dinsert, h, dget, ih]

theorem dget_dinsert_ne {K V : Type} [DecidableEq K] {k k' : K} (v : V) (l : List (K × V))
    (h : k' ≠ k) : dget k' (dinsert k v l) = dget k' l := by
  induction l with
  | nil => simp [dget, dinsert, Ne.symm h]
  | cons p t ih =>
      by_cases hp : p.1 = k
      · rw [dinsert, if_pos hp, dget, dget, hp]
        simp [Ne.symm h]
      · rw [dinsert, if_neg hp, dget, dget, ih]

theorem dget_derase_self {K V : Type} [DecidableEq K] (k : K) (l : List (K × V)) :
    dget k (derase k l) = none := by
  induction l with
  | nil => simp [dget, derase]
  | cons p t ih =>
      by_cases h : p.1 = k
      · simpa [derase, h] using ih
      · simpa [derase, h, dget] using ih

theorem dget_derase_ne {K V : Type} [DecidableEq K] {k k' : K} (l : List (K × V))
    (h : k' ≠ k) : dget k' (derase k l) = dget k' l := by
  induction l with
  | nil => simp [derase]
  | cons p t ih =>
      by_cases hp : p.1 = k
      · have hpk' : p.1 ≠ k' := by rw [hp]; exact Ne.symm h
        rw [derase, List.filter_cons_of_neg (by simpa using hp)]
        rw [derase] at ih
        rw [ih, dget, if_neg hpk']
      · rw [derase, List.filter_cons_of_pos (by simpa using hp)]
        rw [dget, dget]
        by_cases hp' : p.1 = k'
        · simp [hp']
        · rw [if_neg hp', if_neg hp']
          rw [derase] at ih
          exact ih

theorem dget_none_iff {K V : Type} [DecidableEq K] (k : K) (l : List (K × V)) :
    dget k l = none ↔ ∀ p ∈ l, p.1 ≠ k := by
  induction l with
  | nil => simp [dget]
  | cons p t ih =>
      by_cases h : p.1 = k
      · simp [dget, h]
      · simp [dget, h, ih]

theorem dinsert_of_dget_none {K V : Type} [DecidableEq K] (k : K) (v : V) (l : List (K × V))
    (h : dget k l = none) : dinsert k v l = l ++ [(k, v)] := by
  induction l with
  | nil => simp [dinsert]
  | cons p t ih =>
      rw [dget] at h
      by_cases hp : p.1 = k
      · simp [hp] at h
      · simp [hp] at h
        simp [dinsert, hp, ih h]

theorem derase_append_single {K V : Type} [DecidableEq K] (k : K) (v : V) (l : List (K × V))
    (h : dget k l = none) : derase k (l ++ [(k, v)]) = l := by
  rw [dget_none_iff] at h
  unfold derase
  rw [List.filter_append]
  have h1 : List.filter (fun p => decide (p.1 ≠ k)) l = l := by
    apply List.filter_eq_self.mpr
    intro p hp
    simpa using h p hp
  have h2 : List.filter (fun p => decide ((p : K × V).1 ≠ k)) [(k, v)] = [] := by
    simp [List.filter]
  rw [h1, h2, List.append_nil]

/-! ## `src/bot/grid.py`: sides, and `src/bot/state.py`: runtime state

`RuntimeState` in the source also carries an `ExposureCounter` and two
monotonic-clock timestamps; none of the operations studied here
(`track_order`, `drop_order`, the clear-both-maps step of
`_cancel_all_orders`) read or write them, so they are omitted from the
embedding.
-/

inductive GridSide : Type
  | BUY
  | SELL
  deriving DecidableEq

structure OrderRecord : Type where
  level_index : ℤ
  side : GridSide
  price : ℚ
  quantity : ℚ
  client_order_id : String
  order_id : Option ℤ := none
  status : String := "NEW"
  deriving DecidableEq

structure RuntimeState : Type where
  grid_center : ℚ
  last_mid : ℚ
  open_orders : List (ℤ × OrderRecord) := []
  by_client_id : List (String × ℤ) := []
  deriving DecidableEq

/-- `RuntimeState.track_order`: `open_orders[order_id] = record;
by_client_id[record.client_order_id] = order_id`. -/
def RuntimeState.track_order (s : RuntimeState) (order_id : ℤ) (record : OrderRecord) :
    RuntimeState :=
  { s with
    open_orders := dinsert order_id record s.open_orders
    by_client_id := dinsert record.client_order_id order_id s.by_client_id }

/-- `RuntimeState.drop_order`: `record = open_orders.pop(order_id, None)`;
if a record was found, also `by_client_id.pop(record.client_order_id, None)`.
(A dataclass instance is always truthy, so `if record:` tests presence.) -/
def RuntimeState.drop_order (s : RuntimeState) (order_id : ℤ) : RuntimeState :=
  match dget order_id s.open_orders with
  | none => s
  | some record =>
      { s with
        open_orders := derase order_id s.open_orders
        by_client_id := derase record.client_order_id s.by_client_id }

/-- `RuntimeState.get_by_client_id`: transitive lookup through both maps. -/
def RuntimeState.get_by_client_id (s : RuntimeState) (client_id : String) :
    Option OrderRecord :=
  match dget client_id s.by_client_id with
  | none => none
  | some order_id => dget order_id s.open_orders

/-- The clear-both-maps step at the end of
`AsterMVPGridBot._cancel_all_orders`:
`open_orders.clear(); by_client_id.clear()`. -/
def RuntimeState.clear_orders (s : RuntimeState) : RuntimeState :=
  { s with open_orders := [], by_client_id := [] }

/-- `build_initial_state`. -/
def build_initial_state (grid_center : ℚ) : RuntimeState :=
  { grid_center := grid_center, last_mid := grid_center }

/-- States reachable from `build_initial_state` by any sequence of
`track_order`, `drop_order` and the clear step of cancel-all (claim C1's
universe of states). -/
inductive Reachable : RuntimeState → Prop
  | init (c : ℚ) : Reachable (build_initial_state c)
  | track (s : RuntimeState) (order_id : ℤ) (record : OrderRecord) :
      Reachable s → Reachable (s.track_order order_id record)
  | drop (s : RuntimeState) (order_id : ℤ) :
      Reachable s → Reachable (s.drop_order order_id)
  | clear (s : RuntimeState) :
      Reachable s → Reachable s.clear_orders

/-- Same reachable-state relation, restricted to runs in which `track_order`
never re-registers an order id that is currently tracked under a different
client order id (the discipline the bot actually follows: exchange order ids
are fresh). -/
inductive ReachableDisciplined : RuntimeState → Prop
  | init (c : ℚ) : ReachableDisciplined (build_initial_state c)
  | track (s : RuntimeState) (order_id : ℤ) (record : OrderRecord)
      (hfresh : dget order_id s.open_orders = none ∨
        ∀ r0, dget order_id s.open_orders = some r0 →
          r0.client_order_id = record.client_order_id) :
      ReachableDisciplined s → ReachableDisciplined (s.track_order order_id record)
  | drop (s : RuntimeState) (order_id : ℤ) :
      ReachableDisciplined s → ReachableDisciplined (s.drop_order order_id)
  | clear (s : RuntimeState) :
      ReachableDisciplined s → ReachableDisciplined s.clear_orders

/-- Claim C1's invariant: every `client_order_id → order_id` entry of
`by_client_id` has its `order_id` present as a key of `open_orders`. -/
def ClientIndexInv (s : RuntimeState) : Prop :=
  ∀ p ∈ s.by_client_id, (dget p.2 s.open_orders).isSome

instance (s : RuntimeState) : Decidable (ClientIndexInv s) := by
  unfold ClientIndexInv
  infer_instance

theorem mem_dinsert {K V : Type} [DecidableEq K] {p : K × V} {k : K} {v : V}
    {l : List (K × V)} (h : p ∈ dinsert k v l) : p = (k, v) ∨ p ∈ l := by
  induction l with
  | nil => simpa [dinsert] using h
  | cons q t ih =>
      by_cases hq : q.1 = k
      · rw [dinsert, if_pos hq] at h
        rcases List.mem_cons.mp h with h1 | h1
        · exact Or.inl h1
        · exact Or.inr (List.mem_cons_of_mem _ h1)
      · rw [dinsert, if_neg hq] at h
        rcases List.mem_cons.mp h with h1 | h1
        · exact Or.inr (h1 ▸ List.mem_cons_self _ _)
        · rcases ih h1 with h2 | h2
          · exact Or.inl h2
          · exact Or.inr (List.mem_cons_of_mem _ h2)

theorem mem_derase {K V : Type} [DecidableEq K] {p : K × V} {k : K}
    {l : List (K × V)} (h : p ∈ derase k l) : p ∈ l ∧ p.1 ≠ k := by
  unfold derase at h
  have := List.mem_filter.mp h
  exact ⟨this.1, by simpa using this.2⟩

/-- Strengthened inductive invariant: every `by_client_id` entry points to a
tracked record whose own `client_order_id` is that entry's key. -/
def ClientIndexInvStrong (s : RuntimeState) : Prop :=
  ∀ p ∈ s.by_client_id, ∃ r, dget p.2 s.open_orders = some r ∧
    r.client_order_id = p.1

theorem strong_inv_track (s : RuntimeState) (order_id : ℤ) (record : OrderRecord)
    (hfresh : dget order_id s.open_orders = none ∨
      ∀ r0, dget order_id s.open_orders = some r0 →
        r0.client_order_id = record.client_order_id)
    (hs : ClientIndexInvStrong s) :
    ClientIndexInvStrong (s.track_order order_id record) := by
  intro p hp
  unfold RuntimeState.track_order at hp ⊢
  simp only at hp ⊢
  rcases mem_dinsert hp with hnew | hold
  · subst hnew
    exact ⟨record, dget_dinsert_self _ _ _, rfl⟩
  · obtain ⟨r, hr, hrc⟩ := hs p hold
    by_cases hoid : p.2 = order_id
    · rw [hoid] at hr ⊢
      rcases hfresh with hnone | hsame
      · rw [hnone] at hr; cases hr
      · exact ⟨record, dget_dinsert_self _ _ _, by rw [← hsame r hr, hrc]⟩
    · exact ⟨r, by rw [dget_dinsert_ne _ _ hoid]; exact hr, hrc⟩

theorem strong_inv_drop (s : RuntimeState) (order_id : ℤ)
    (hs : ClientIndexInvStrong s) :
    ClientIndexInvStrong (s.drop_order order_id) := by
  unfold RuntimeState.drop_order
  cases hrec : dget order_id s.open_orders with
  | none => exact hs
  | some record =>
      intro p hp
      simp only at hp ⊢
      obtain ⟨hmem, hne⟩ := mem_derase hp
      obtain ⟨r, hr, hrc⟩ := hs p hmem
      by_cases hoid : p.2 = order_id
      · rw [hoid, hrec] at hr
        cases hr
        exact absurd hrc.symm hne
      · exact ⟨r, by rw [dget_derase_ne _ hoid]; exact hr, hrc⟩

theorem strong_inv_reachable (s : RuntimeState) (h : ReachableDisciplined s) :
    ClientIndexInvStrong s := by
  induction h with
  | init c =>
      intro p hp
      simp [build_initial_state] at hp
  | track s oid record hfresh _ ih => exact strong_inv_track s oid record hfresh ih
  | drop s oid _ ih => exact strong_inv_drop s oid ih
  | clear s _ _ =>
      intro p hp
      simp [RuntimeState.clear_orders] at hp

/-- C1, counterexample: re-tracking order id 1 under a second client order
id and then dropping it leaves a dangling `by_client_id` entry. -/
def demoRecordA : OrderRecord :=
  { level_index := 0, side := GridSide.BUY, price := 1, quantity := 1,
    client_order_id := "a" }

def demoRecordB : OrderRecord :=
  { level_index := 0, side := GridSide.BUY, price := 1, quantity := 1,
    client_order_id := "b" }

def c1BadState : RuntimeState :=
  (((build_initial_state 0).track_order 1 demoRecordA).track_order 1 demoRecordB).drop_order 1

/-- C1 fails as stated: the state obtained by
`track_order(1, record "a"); track_order(1, record "b"); drop_order(1)`
from the initial state is reachable, yet its `by_client_id` still maps
`"a"` to order id `1`, which is no longer a key of `open_orders`. -/
theorem c1_by_client_id_invariant_counterexample :
    Reachable c1BadState ∧ ¬ ClientIndexInv c1BadState := by
  constructor
  · exact Reachable.drop _ 1 (Reachable.track _ 1 demoRecordB
      (Reachable.track _ 1 demoRecordA (Reachable.init 0)))
  · decide

/-- C1 (amended): in every state built by `build_initial_state` and mutated
by any sequence of `track_order`, `drop_order` and the clear-both-maps step
of cancel-all in which `track_order` never re-registers a currently tracked
order id under a different client order id, every
`client_order_id → order_id` entry of `by_client_id` has that `order_id`
present as a key of `open_orders`. -/
theorem c1_by_client_id_invariant (s : RuntimeState) (h : ReachableDisciplined s) :
    ClientIndexInv s := by
  intro p hp
  obtain ⟨r, hr, _⟩ := strong_inv_reachable s h p hp
  rw [hr]
  rfl

/-- Witness for C1: the disciplined state after one `track_order` satisfies
the invariant. -/
theorem c1_by_client_id_invariant_witness :
    ClientIndexInv ((build_initial_state 0).track_order 1 demoRecordA) :=
  c1_by_client_id_invariant _
    (ReachableDisciplined.track _ 1 demoRecordA (Or.inl rfl) (ReachableDisciplined.init 0))

/-- C9, counterexample: if `order_id` is already tracked, `track_order`
overwrites it and `drop_order` then removes it entirely, so the pair of
calls does not restore the original maps.  Here the very same record is
re-tracked under its existing id. -/
def demoState : RuntimeState :=
  { grid_center := 0, last_mid := 0,
    open_orders := [(1, demoRecordA)], by_client_id := [("a", 1)] }

/-- C9 fails as stated: starting from a state that already tracks order 1,
`track_order(1, r); drop_order(1)` empties both maps instead of restoring
them. -/
theorem c9_track_drop_roundtrip_counterexample :
    ¬ (((demoState.track_order 1 demoRecordA).drop_order 1).open_orders =
        demoState.open_orders ∧
      ((demoState.track_order 1 demoRecordA).drop_order 1).by_client_id =
        demoState.by_client_id) := by
  decide

/-- C9 (amended): for every `RuntimeState`, order id and record, if the
order id is not already a key of `open_orders` and the record's client
order id is not already a key of `by_client_id`, then
`track_order(id, r); drop_order(id)` restores the state exactly (both maps,
entry for entry, and the scalar fields). -/
theorem c9_track_drop_roundtrip (s : RuntimeState) (order_id : ℤ) (r : OrderRecord)
    (hid : dget order_id s.open_orders = none)
    (hcid : dget r.client_order_id s.by_client_id = none) :
    (s.track_order order_id r).drop_order order_id = s := by
  have hopen : (s.track_order order_id r).open_orders = s.open_orders ++ [(order_id, r)] := by
    unfold RuntimeState.track_order
    exact dinsert_of_dget_none _ _ _ hid
  have hby : (s.track_order order_id r).by_client_id =
      s.by_client_id ++ [(r.client_order_id, order_id)] := by
    unfold RuntimeState.track_order
    exact dinsert_of_dget_none _ _ _ hcid
  have hfind : dget order_id (s.track_order order_id r).open_orders = some r := by
    unfold RuntimeState.track_order
    exact dget_dinsert_self _ _ _
  unfold RuntimeState.drop_order
  rw [hfind]
  dsimp only
  rw [hopen, hby, derase_append_single _ _ _ hid, derase_append_single _ _ _ hcid]
  simp [RuntimeState.track_order]

/-- Witness for C9: round-trip at a concrete fresh id and record. -/
theorem c9_track_drop_roundtrip_witness :
    dget 2 demoState.open_orders = none ∧
      dget "b" demoState.by_client_id = none ∧
      (demoState.track_order 2 demoRecordB).drop_order 2 = demoState :=
  ⟨by decide, by decide, c9_track_drop_roundtrip demoState 2 demoRecordB (by decide) (by decide)⟩

/-- C10 (confirmed): dropping an untracked order id is a no-op:
`open_orders.pop` returns the default `None`, so neither map is touched. -/
theorem c10_drop_missing_is_noop (s : RuntimeState) (order_id : ℤ)
    (h : dget order_id s.open_orders = none) :
    (s.drop_order order_id).open_orders = s.open_orders ∧
      (s.drop_order order_id).by_client_id = s.by_client_id := by
  unfold RuntimeState.drop_order
  rw [h]
  exact ⟨rfl, rfl⟩

/-- Witness for C10: dropping id 2 from a state that tracks only id 1. -/
theorem c10_drop_missing_is_noop_witness :
    dget 2 demoState.open_orders = none ∧
      ((demoState.drop_order 2).open_orders = demoState.open_orders ∧
        (demoState.drop_order 2).by_client_id = demoState.by_client_id) :=
  ⟨by decide, c10_drop_missing_is_noop demoState 2 (by decide)⟩

/-! ## `AsterMVPGridBot._setup_margin_and_leverage` (claim C8)

The REST outcome of each setup call (after its retry wrapper) is modelled as
`Except RestError Unit`.  `RestAPIError.payload.get("code", "")` is compared
as a string against literal code sets; an absent code never matches, so the
payload code is modelled as `Option ℤ`.
-/

structure RestError : Type where
  code : Option ℤ
  deriving DecidableEq

/-- Codes swallowed around `set_margin_type`: `{-4046, -4098, -4100}`. -/
def margin_swallowed (e : RestError) : Prop :=
  e.code = some (-4046) ∨ e.code = some (-4098) ∨ e.code = some (-4100)

instance : DecidablePred margin_swallowed := fun e => by
  unfold margin_swallowed
  infer_instance

/-- Codes swallowed around `set_leverage`: `{-4003, -4056}`. -/
def leverage_swallowed (e : RestError) : Prop :=
  e.code = some (-4003) ∨ e.code = some (-4056)

instance : DecidablePred leverage_swallowed := fun e => by
  unfold leverage_swallowed
  infer_instance

/-- `AsterMVPGridBot._setup_margin_and_leverage`, live path (`dry_run` is an
early return), as a function of the outcomes of the two REST calls: the
margin-type call runs first with its own swallow set, then the leverage call
with its own swallow set; any unswallowed error propagates. -/
def setup_margin_and_leverage (dry_run : Bool)
    (margin_call leverage_call : Except RestError Unit) : Except RestError Unit :=
  if dry_run then Except.ok () else
  let after_margin : Except RestError Unit :=
    match margin_call with
    | Except.ok _ => Except.ok ()
    | Except.error e => if margin_swallowed e then Except.ok () else Except.error e
  match after_margin with
  | Except.error e => Except.error e
  | Except.ok _ =>
      match leverage_call with
      | Except.ok _ => Except.ok ()
      | Except.error e => if leverage_swallowed e then Except.ok () else Except.error e

/-- C8 fails as stated: `-4003` is in the claimed swallow set, but a
margin-type failure with that code propagates instead of completing as
success. -/
theorem c8_swallowed_codes_counterexample :
    setup_margin_and_leverage false (Except.error { code := some (-4003) })
      (Except.ok ()) = Except.error { code := some (-4003) } := by
  rfl

/-- C8 (amended): in a live run, the margin-type call swallows exactly the
codes `{-4046, -4098, -4100}` and the leverage call swallows exactly
`{-4003, -4056}`; setup succeeds iff each call either succeeded or failed
with a code in its own swallow set, and otherwise the first unswallowed
error propagates to the caller. -/
theorem c8_swallowed_codes (mc lc : Except RestError Unit) :
    (setup_margin_and_leverage false mc lc = Except.ok () ↔
      (mc = Except.ok () ∨ ∃ e, mc = Except.error e ∧ margin_swallowed e) ∧
        (lc = Except.ok () ∨ ∃ e, lc = Except.error e ∧ leverage_swallowed e)) ∧
      (∀ e, mc = Except.error e → ¬ margin_swallowed e →
        setup_margin_and_leverage false mc lc = Except.error e) ∧
      (∀ e, (mc = Except.ok () ∨ ∃ e0, mc = Except.error e0 ∧ margin_swallowed e0) →
        lc = Except.error e → ¬ leverage_swallowed e →
        setup_margin_and_leverage false mc lc = Except.error e) := by
  refine ⟨?_, ?_, ?_⟩
  · cases mc with
    | ok u =>
        cases lc with
        | ok v => simp [setup_margin_and_leverage]
        | error e =>
            by_cases h : leverage_swallowed e
            · simp [setup_margin_and_leverage, h]
            · simp [setup_margin_and_leverage, h]
    | error e =>
        by_cases h : margin_swallowed e
        · cases lc with
          | ok v => simp [setup_margin_and_leverage, h]
          | error e' =>
              by_cases h' : leverage_swallowed e'
              · simp [setup_margin_and_leverage, h, h']
              · simp [setup_margin_and_leverage, h, h']
        · simp [setup_margin_and_leverage, h]
  · intro e hmc hsw
    subst hmc
    simp [setup_margin_and_leverage, hsw]
  · intro e hmc hlc hsw
    subst hlc
    rcases hmc with hok | ⟨e0, he0, hsw0⟩
    · subst hok
      simp [setup_margin_and_leverage, hsw]
    · subst he0
      simp [setup_margin_and_leverage, hsw0, hsw]

/-- Witness for C8: the margin call failing with `-4046` and the leverage
call failing with `-4056` still complete the setup as success. -/
theorem c8_swallowed_codes_witness :
    setup_margin_and_leverage false (Except.error { code := some (-4046) })
      (Except.error { code := some (-4056) }) = Except.ok () := by
  have h := (c8_swallowed_codes (Except.error { code := some (-4046) })
    (Except.error { code := some (-4056) })).1.mpr
  exact h ⟨Or.inr ⟨_, rfl, by decide⟩, Or.inr ⟨_, rfl, by decide⟩⟩

/-! ## `AsterMVPGridBot._check_recenter` (claim C2)

The decision part of `_check_recenter`, as a function of the configured
threshold factor, the active layout's spacing and levels-per-side, the new
mid, the grid center, and the wall-clock times.  `_last_recenter_time` is
always set before the market stream runs (bootstrap stamps it), so the
`hasattr` guard is passed and the debounce comparison applies.  The function
returns `true` iff a recenter is triggered. -/
def check_recenter (recenter_threshold spacing : ℚ) (levels_per_side : ℤ)
    (mid grid_center : ℚ) (current_time last_recenter_time : ℚ) : Bool :=
  let span := spacing * (max 1 levels_per_side : ℤ)
  let threshold0 := recenter_threshold * span
  let threshold := if threshold0 ≤ 0 then spacing * 2 else threshold0
  if |mid - grid_center| < threshold then false
  else if current_time - last_recenter_time < 300 then false
  else true

/-- The spec's trigger condition for C2:
`|mid - center| ≥ max(recenter_threshold * spacing * levels_per_side,
2 * spacing)` and at least 300 s elapsed. -/
def spec_recenter_trigger (recenter_threshold spacing : ℚ) (levels_per_side : ℤ)
    (mid grid_center : ℚ) (current_time last_recenter_time : ℚ) : Prop :=
  |mid - grid_center| ≥
      max (recenter_threshold * spacing * (levels_per_side : ℚ)) (2 * spacing) ∧
    current_time - last_recenter_time ≥ 300

instance (rt s : ℚ) (n : ℤ) (m c t l : ℚ) :
    Decidable (spec_recenter_trigger rt s n m c t l) := by
  unfold spec_recenter_trigger
  infer_instance

/-- C2 fails as stated: with `recenter_threshold = 1/2`, `spacing = 20`,
`levels_per_side = 2`, the code's threshold is
`recenter_threshold * spacing * levels_per_side = 20` (the `2 * spacing`
floor applies only when that product is ≤ 0), so a drift of 30 triggers a
recenter although the claimed threshold `max(20, 40) = 40` is not reached. -/
theorem c2_recenter_threshold_counterexample :
    check_recenter (1/2) 20 2 30 0 1000 0 = true ∧
      ¬ spec_recenter_trigger (1/2) 20 2 30 0 1000 0 := by
  constructor
  · norm_num [check_recenter]
  · intro h
    obtain ⟨h1, _⟩ := h
    norm_num at h1

/-- C2 (amended): a book-ticker mid triggers a recenter exactly when
`|mid - grid_center| ≥ T` and at least 300 seconds have elapsed since the
last recenter, where `T = recenter_threshold * spacing * max(1, n)` if that
product is positive and `T = 2 * spacing` otherwise. -/
theorem c2_recenter_trigger (rt s : ℚ) (n : ℤ) (mid c now last : ℚ) :
    check_recenter rt s n mid c now last = true ↔
      (|mid - c| ≥
          (if 0 < rt * (s * ((max 1 n : ℤ) : ℚ)) then rt * (s * ((max 1 n : ℤ) : ℚ))
            else 2 * s) ∧
        now - last ≥ 300) := by
  unfold check_recenter
  dsimp only
  by_cases h0 : rt * (s * ((max 1 n : ℤ) : ℚ)) ≤ 0
  · rw [if_pos h0, if_neg (not_lt.mpr h0)]
    by_cases h1 : |mid - c| < s * 2
    · rw [if_pos h1]
      simp only [Bool.false_eq_true, false_iff]
      intro hcon
      obtain ⟨ha, _⟩ := hcon
      linarith
    · rw [if_neg h1]
      by_cases h2 : now - last < 300
      · rw [if_pos h2]
        simp only [Bool.false_eq_true, false_iff]
        intro hcon
        obtain ⟨_, hb⟩ := hcon
        linarith
      · rw [if_neg h2]
        simp only [true_iff]
        exact ⟨by linarith [not_lt.mp h1], not_lt.mp h2⟩
  · rw [if_neg h0, if_pos (lt_of_not_le h0)]
    by_cases h1 : |mid - c| < rt * (s * ((max 1 n : ℤ) : ℚ))
    · rw [if_pos h1]
      simp only [Bool.false_eq_true, false_iff]
      intro hcon
      obtain ⟨ha, _⟩ := hcon
      linarith
    · rw [if_neg h1]
      by_cases h2 : now - last < 300
      · rw [if_pos h2]
        simp only [Bool.false_eq_true, false_iff]
        intro hcon
        obtain ⟨_, hb⟩ := hcon
        linarith
      · rw [if_neg h2]
        simp only [true_iff]
        exact ⟨not_lt.mp h1, not_lt.mp h2⟩

/-! ## `AsterMVPGridBot._compute_relaunch_price` and `_align_price` (claim C3) -/

/-- `AsterMVPGridBot._align_price`. -/
def align_price (value : ℚ) (side : GridSide) (tick : ℚ) : ℚ :=
  if tick ≤ 0 then value
  else match side with
    | GridSide.BUY => max tick ((⌊value / tick⌋ : ℤ) * tick)
    | GridSide.SELL => (⌈value / tick⌉ : ℤ) * tick

/-- `AsterMVPGridBot._compute_relaunch_price`, as a function of the active
layout's `spacing`, `upper_price`, `lower_price` and the filter `tick`. -/
def compute_relaunch_price (spacing upper_price lower_price tick : ℚ)
    (side : GridSide) (reference_price : ℚ) : Option ℚ :=
  match side with
  | GridSide.SELL =>
      let raw := max (reference_price + spacing) (reference_price + tick)
      let capped := min raw upper_price
      if capped ≤ reference_price then none
      else some (align_price capped GridSide.SELL tick)
  | GridSide.BUY =>
      let raw := min (reference_price - spacing) (reference_price - tick)
      let capped := max raw lower_price
      if |capped - reference_price| < tick then none
      else some (align_price capped GridSide.BUY tick)

/-- C3 fails as stated: with `spacing = 20`, `upper_price = 100`,
`tick = 1` and reference price `90`, the raw SELL target `110` exceeds the
grid's upper bound, yet the function returns `some 100` (the capped,
aligned price) rather than `None` as the claim's final clause demands. -/
theorem c3_relaunch_price_counterexample :
    max ((90 : ℚ) + 20) (90 + 1) > 100 ∧
      compute_relaunch_price 20 100 0 1 GridSide.SELL 90 = some 100 := by
  constructor
  · norm_num
  · norm_num [compute_relaunch_price, align_price]

/-- C3 (amended): for every reference price `p`,
`_compute_relaunch_price(SELL, p)` is `None` exactly when
`capped = min(max(p + spacing, p + tick), upper_price) ≤ p`, and otherwise
equals the up-to-tick alignment of `capped`; `_compute_relaunch_price(BUY, p)`
is `None` exactly when `|capped' - p| < tick` for
`capped' = max(min(p - spacing, p - tick), lower_price)`, and otherwise
equals the down-to-tick alignment (clamped below at one tick) of `capped'`.
Raw targets beyond the grid bounds are capped at the bound, not rejected;
`None` on the SELL side requires the reference itself to sit at or above
`upper_price`. -/
theorem c3_relaunch_price (spacing upper lower tick p : ℚ) :
    (compute_relaunch_price spacing upper lower tick GridSide.SELL p = none ↔
        min (max (p + spacing) (p + tick)) upper ≤ p) ∧
      (¬ min (max (p + spacing) (p + tick)) upper ≤ p →
        compute_relaunch_price spacing upper lower tick GridSide.SELL p =
          some (align_price (min (max (p + spacing) (p + tick)) upper)
            GridSide.SELL tick)) ∧
      (compute_relaunch_price spacing upper lower tick GridSide.BUY p = none ↔
        |max (min (p - spacing) (p - tick)) lower - p| < tick) ∧
      (¬ |max (min (p - spacing) (p - tick)) lower - p| < tick →
        compute_relaunch_price spacing upper lower tick GridSide.BUY p =
          some (align_price (max (min (p - spacing) (p - tick)) lower)
            GridSide.BUY tick)) := by
  refine ⟨?_, ?_, ?_, ?_⟩
  · unfold compute_relaunch_price
    dsimp only
    split_ifs with h
    · simp [h]
    · simp [h]
  · intro h
    unfold compute_relaunch_price
    dsimp only
    rw [if_neg h]
  · unfold compute_relaunch_price
    dsimp only
    split_ifs with h
    · simp [h]
    · simp [h]
  · intro h
    unfold compute_relaunch_price
    dsimp only
    rw [if_neg h]

/-- Witness for C3: at `spacing = 20`, bounds `[59960, 60040]`,
`tick = 1/100`, a SELL refill after a BUY fill at `59980` lands at `60000`,
and a BUY refill after a SELL fill at `60040` lands at `60020`. -/
theorem c3_relaunch_price_witness :
    ¬ min (max ((59980 : ℚ) + 20) (59980 + 1/100)) 60040 ≤ 59980 ∧
      compute_relaunch_price 20 60040 59960 (1/100) GridSide.SELL 59980 =
        some (align_price (min (max ((59980 : ℚ) + 20) (59980 + 1/100)) 60040)
          GridSide.SELL (1/100)) :=
  ⟨by norm_num,
    ((c3_relaunch_price 20 60040 59960 (1/100) 59980).2.1) (by norm_num)⟩

/-! ## `AsterMVPGridBot._adjust_price_for_guard` (claim C7)

The stepping loops of `_adjust_price_for_guard`.  Each Python loop body
moves the price one tick, increments `iterations`, and `break`s once
`iterations > 50`; so a pass runs whenever the guard condition holds and at
most 51 passes run.  The loops are modelled with a pass budget of 51 and
also return the number of passes executed. -/

/-- BUY-side stepping loop:
`while best_ask - price <= guard_distance and price > tick:
price = max(tick, price - tick); ...` with the 51-pass break. -/
def buy_guard_loop (best_ask guard_distance tick : ℚ) : ℕ → ℚ → ℚ × ℕ
  | 0, price => (price, 0)
  | budget + 1, price =>
      if best_ask - price ≤ guard_distance ∧ price > tick then
        let r := buy_guard_loop best_ask guard_distance tick budget (max tick (price - tick))
        (r.1, r.2 + 1)
      else (price, 0)

/-- SELL-side stepping loop:
`while price - best_bid <= guard_distance: price += tick; ...` with the
51-pass break. -/
def sell_guard_loop (best_bid guard_distance tick : ℚ) : ℕ → ℚ → ℚ × ℕ
  | 0, price => (price, 0)
  | budget + 1, price =>
      if price - best_bid ≤ guard_distance then
        let r := sell_guard_loop best_bid guard_distance tick budget (price + tick)
        (r.1, r.2 + 1)
      else (price, 0)

theorem buy_guard_loop_budget (best_ask guard tick : ℚ) (budget : ℕ) (price : ℚ) :
    (buy_guard_loop best_ask guard tick budget price).2 ≤ budget := by
  induction budget generalizing price with
  | zero => simp [buy_guard_loop]
  | succ n ih =>
      unfold buy_guard_loop
      split_ifs with h
      · simpa using ih (max tick (price - tick))
      · simp

theorem sell_guard_loop_budget (best_bid guard tick : ℚ) (budget : ℕ) (price : ℚ) :
    (sell_guard_loop best_bid guard tick budget price).2 ≤ budget := by
  induction budget generalizing price with
  | zero => simp [sell_guard_loop]
  | succ n ih =>
      unfold sell_guard_loop
      split_ifs with h
      · simpa using ih (price + tick)
      · simp

theorem buy_guard_loop_stops (best_ask guard tick : ℚ) (budget : ℕ) (price : ℚ)
    (h : (buy_guard_loop best_ask guard tick budget price).2 < budget) :
    ¬ (best_ask - (buy_guard_loop best_ask guard tick budget price).1 ≤ guard ∧
        (buy_guard_loop best_ask guard tick budget price).1 > tick) := by
  induction budget generalizing price with
  | zero => exact absurd h (by simp)
  | succ n ih =>
      unfold buy_guard_loop at h ⊢
      split_ifs at h ⊢ with hc
      · simp only at h ⊢
        exact ih (max tick (price - tick)) (by omega)
      · exact hc

theorem sell_guard_loop_stops (best_bid guard tick : ℚ) (budget : ℕ) (price : ℚ)
    (h : (sell_guard_loop best_bid guard tick budget price).2 < budget) :
    ¬ ((sell_guard_loop best_bid guard tick budget price).1 - best_bid ≤ guard) := by
  induction budget generalizing price with
  | zero => exact absurd h (by simp)
  | succ n ih =>
      unfold sell_guard_loop at h ⊢
      split_ifs at h ⊢ with hc
      · simp only at h ⊢
        exact ih (price + tick) (by omega)
      · exact hc

/-- C7 fails as stated: with `best_bid = 0`, `tick = 1`,
`guard_distance = 100` and starting price `1`, the SELL stepping loop moves
the price 51 times (the `iterations > 50` break fires only after the 51st
pass), exceeding the claimed bound of 50. -/
theorem c7_guard_loop_counterexample :
    (sell_guard_loop 0 100 1 51 1).2 = 51 ∧ ¬ ((sell_guard_loop 0 100 1 51 1).2 ≤ 50) := by
  have h : (sell_guard_loop 0 100 1 51 1).2 = 51 := by norm_num [sell_guard_loop]
  exact ⟨h, by rw [h]; norm_num⟩

/-- C7 (amended): for every input price, book side and guard distance, both
stepping loops of `_adjust_price_for_guard` terminate after at most 51
passes (not 50: the `iterations > 50` break runs after the 51st move), and
whenever a loop stops below its pass budget the guard condition no longer
holds at the returned price. -/
theorem c7_guard_loop_bound (best_ask best_bid guard tick price : ℚ) :
    (buy_guard_loop best_ask guard tick 51 price).2 ≤ 51 ∧
      (sell_guard_loop best_bid guard tick 51 price).2 ≤ 51 ∧
      ((buy_guard_loop best_ask guard tick 51 price).2 < 51 →
        ¬ (best_ask - (buy_guard_loop best_ask guard tick 51 price).1 ≤ guard ∧
            (buy_guard_loop best_ask guard tick 51 price).1 > tick)) ∧
      ((sell_guard_loop best_bid guard tick 51 price).2 < 51 →
        ¬ ((sell_guard_loop best_bid guard tick 51 price).1 - best_bid ≤ guard)) :=
  ⟨buy_guard_loop_budget _ _ _ _ _, sell_guard_loop_budget _ _ _ _ _,
    buy_guard_loop_stops _ _ _ _ _, sell_guard_loop_stops _ _ _ _ _⟩

/-! ## `src/bot/grid.py`: the grid builder (claims C4, C5, C6)

`BotConfig` and `SymbolFilters` keep only the fields the grid code reads.
One divergence of the rational idealisation from Python: `x / 0 = 0` in `ℚ`
while Python raises `ZeroDivisionError`, so every theorem below assumes
`0 < tick_size` and `0 < step_size` where division by them occurs. -/

structure BotConfig : Type where
  grid_spacing : ℚ
  per_order_quote_usd : ℚ
  maker_guard_ticks : ℤ
  recenter_threshold : ℚ
  deriving DecidableEq

structure SymbolFilters : Type where
  tick_size : ℚ
  step_size : ℚ
  min_qty : ℚ
  min_notional : ℚ
  deriving DecidableEq

/-- Module constant `PREFERRED_BASE_QTY = 0.001`. -/
def PREFERRED_BASE_QTY : ℚ := 1/1000

/-- `preferred_base_quantity` ignores its config argument. -/
def preferred_base_quantity (_cfg : BotConfig) : ℚ := PREFERRED_BASE_QTY

/-- `_floor_to_tick`. -/
def floor_to_tick (value tick : ℚ) : ℚ :=
  if tick ≤ 0 then value else (⌊value / tick⌋ : ℤ) * tick

/-- `_ceil_to_tick`. -/
def ceil_to_tick (value tick : ℚ) : ℚ :=
  if tick ≤ 0 then value else (⌈value / tick⌉ : ℤ) * tick

/-- Round-half-even to an integer: the rounding used by both Python's
`round` builtin and `f"{v:.10f}"` formatting, on exact rational values. -/
def round_half_even (q : ℚ) : ℤ :=
  if q - ⌊q⌋ < 1/2 then ⌊q⌋
  else if 1/2 < q - ⌊q⌋ then ⌊q⌋ + 1
  else if ⌊q⌋ % 2 = 0 then ⌊q⌋ else ⌊q⌋ + 1

/-- Number of trailing zero digits among the 10 fractional digits of
`f"{v:.10f}"`, where `n` is the magnitude of the rounded scaled value
`v * 10^10`: the multiplicity of 10 in `n`, capped at 10 (only the ten
fractional digits are stripped). -/
def fractional_trailing_zeros (n : ℕ) : ℕ :=
  if n % 10 ≠ 0 then 0
  else if n % 100 ≠ 0 then 1
  else if n % 1000 ≠ 0 then 2
  else if n % 10000 ≠ 0 then 3
  else if n % 100000 ≠ 0 then 4
  else if n % 1000000 ≠ 0 then 5
  else if n % 10000000 ≠ 0 then 6
  else if n % 100000000 ≠ 0 then 7
  else if n % 1000000000 ≠ 0 then 8
  else if n % 10000000000 ≠ 0 then 9
  else 10

/-- `_decimal_places`: format `value` with 10 decimals, strip trailing
zeros, count what remains after the point.  (When everything is stripped
the text still ends in `"."` and the count is 0; `value = 0` formats as
`"0.0000000000"` and also yields 0.) -/
def decimal_places (value : ℚ) : ℕ :=
  let n := (round_half_even (value * 10^10)).natAbs
  if n = 0 then 0 else 10 - fractional_trailing_zeros n

/-- Python `round(x, nd)` on an exact value. -/
def pyround (x : ℚ) (nd : ℕ) : ℚ :=
  (round_half_even (x * 10^nd) : ℚ) / 10^nd

/-- The distinct ways `grid.py` raises `GridComputationError` (plus the
`out_of_fuel` artifact of the bounded loop model, proved unreachable
below). -/
inductive GridError : Type
  | mid_non_positive
  | levels_non_positive
  | buy_price_non_positive
  | price_non_positive
  | invalid_step
  | below_min_notional
  | notional_ceiling
  | out_of_fuel
  deriving DecidableEq

structure GridLevel : Type where
  index : ℕ
  side : GridSide
  price : ℚ
  quantity : ℚ
  deriving DecidableEq

structure GridLayout : Type where
  center_price : ℚ
  lower_price : ℚ
  upper_price : ℚ
  spacing : ℚ
  levels_per_side : ℤ
  levels : List GridLevel
  deriving DecidableEq

/-- `raw_qty` of `_compute_quantity` (the `per_order_quote_usd` branch is
dead code because `PREFERRED_BASE_QTY > 0`, but it is kept verbatim). -/
def qty_raw (cfg : BotConfig) (price : ℚ) : ℚ :=
  if 0 < preferred_base_quantity cfg then preferred_base_quantity cfg
  else cfg.per_order_quote_usd / price

/-- `steps = max(1, math.ceil((raw_qty - 1e-12) / step))`. -/
def qty_steps0 (cfg : BotConfig) (price : ℚ) (f : SymbolFilters) : ℤ :=
  max 1 ⌈(qty_raw cfg price - 1/10^12) / f.step_size⌉

/-- The quantity entering the notional loop: `steps * step`, raised to
`min_qty` when below it. -/
def qty_initial (cfg : BotConfig) (price : ℚ) (f : SymbolFilters) : ℚ :=
  let q := (qty_steps0 cfg price f : ℚ) * f.step_size
  if q < f.min_qty then f.min_qty else q

/-- The `while price * qty < min_notional` loop of `_compute_quantity`:
each pass increments `steps`, recomputes `qty = steps * step`, and raises
once `steps > 1_000_000`.  `fuel` bounds the recursion; with the fuel used
below it is provably never exhausted. -/
def qty_loop (price min_notional step : ℚ) : ℕ → ℤ → ℚ → Except GridError ℚ
  | 0, _, _ => Except.error GridError.out_of_fuel
  | fuel + 1, steps, qty =>
      if price * qty < min_notional then
        let steps1 := steps + 1
        if 1000000 < steps1 then Except.error GridError.notional_ceiling
        else qty_loop price min_notional step fuel steps1 ((steps1 : ℚ) * step)
      else Except.ok qty

def QTY_FUEL : ℕ := 2000000

/-- `_compute_quantity`. -/
def compute_quantity (cfg : BotConfig) (price : ℚ) (f : SymbolFilters) :
    Except GridError ℚ :=
  if price ≤ 0 then Except.error GridError.price_non_positive
  else if f.step_size ≤ 0 then Except.error GridError.invalid_step
  else
    match qty_loop price f.min_notional f.step_size QTY_FUEL
        (qty_steps0 cfg price f) (qty_initial cfg price f) with
    | Except.error e => Except.error e
    | Except.ok q => Except.ok (pyround q (decimal_places f.step_size))

/-- The buy price for step `i`: `floor_to_tick(mid - spacing * i)`. -/
def grid_buy_price (mid spacing tick : ℚ) (i : ℕ) : ℚ :=
  floor_to_tick (mid - spacing * i) tick

/-- The sell price for step `i`: `ceil_to_tick(mid + spacing * i)`. -/
def grid_sell_price (mid spacing tick : ℚ) (i : ℕ) : ℚ :=
  ceil_to_tick (mid + spacing * i) tick

/-- The `for step in range(1, levels_per_side + 1)` loop of `build_grid`:
build both levels for the current step (with `_ensure_notional` checks),
append them, track lowest/highest prices, recurse.  `step0` is the current
step number, `remaining` the number of steps still to run. -/
def build_steps (mid spacing : ℚ) (cfg : BotConfig) (f : SymbolFilters) :
    ℕ → ℕ → List GridLevel → ℚ → ℚ → Except GridError (List GridLevel × ℚ × ℚ)
  | 0, _, levels, lowest, highest => Except.ok (levels, lowest, highest)
  | remaining + 1, step0, levels, lowest, highest =>
      let buy_price := grid_buy_price mid spacing f.tick_size step0
      let sell_price := grid_sell_price mid spacing f.tick_size step0
      if buy_price ≤ 0 then Except.error GridError.buy_price_non_positive
      else
        match compute_quantity cfg buy_price f with
        | Except.error e => Except.error e
        | Except.ok buy_qty =>
            match compute_quantity cfg sell_price f with
            | Except.error e => Except.error e
            | Except.ok sell_qty =>
                if buy_price * buy_qty < f.min_notional then
                  Except.error GridError.below_min_notional
                else if sell_price * sell_qty < f.min_notional then
                  Except.error GridError.below_min_notional
                else
                  build_steps mid spacing cfg f remaining (step0 + 1)
                    (levels ++
                      [{ index := levels.length, side := GridSide.BUY,
                         price := buy_price, quantity := buy_qty },
                       { index := levels.length + 1, side := GridSide.SELL,
                         price := sell_price, quantity := sell_qty }])
                    (min lowest buy_price) (max highest sell_price)

/-- `spacing = max(1, ceil(grid_spacing / tick_size)) * tick_size`. -/
def grid_spacing_value (cfg : BotConfig) (f : SymbolFilters) : ℚ :=
  ((max 1 ⌈cfg.grid_spacing / f.tick_size⌉ : ℤ) : ℚ) * f.tick_size

/-- `build_grid`. -/
def build_grid (mid_price : ℚ) (cfg : BotConfig) (f : SymbolFilters)
    (levels_per_side : ℤ) : Except GridError GridLayout :=
  if mid_price ≤ 0 then Except.error GridError.mid_non_positive
  else if levels_per_side ≤ 0 then Except.error GridError.levels_non_positive
  else
    match build_steps mid_price (grid_spacing_value cfg f) cfg f
        levels_per_side.toNat 1 [] mid_price mid_price with
    | Except.error e => Except.error e
    | Except.ok (levels, lowest, highest) =>
        Except.ok
          { center_price := mid_price, lower_price := lowest,
            upper_price := highest, spacing := grid_spacing_value cfg f,
            levels_per_side := levels_per_side, levels := levels }

/-- Whether an `Except` value is an error. -/
def isErr {ε α : Type} : Except ε α → Bool
  | Except.error _ => true
  | Except.ok _ => false

theorem round_half_even_intCast (z : ℤ) : round_half_even (z : ℚ) = z := by
  unfold round_half_even
  rw [Int.floor_intCast, sub_self]
  norm_num

theorem pyround_int (x : ℚ) (d : ℕ) (h : ∃ z : ℤ, x * 10 ^ d = z) :
    pyround x d = x := by
  obtain ⟨z, hz⟩ := h
  unfold pyround
  rw [hz, round_half_even_intCast, ← hz]
  have h10 : ((10 : ℚ) ^ d) ≠ 0 := by positivity
  field_simp

set_option maxHeartbeats 1000000 in
theorem fractional_trailing_zeros_le (n : ℕ) : fractional_trailing_zeros n ≤ 10 := by
  unfold fractional_trailing_zeros
  split_ifs <;> omega

set_option maxHeartbeats 2000000 in
theorem fractional_trailing_zeros_dvd (n : ℕ) :
    10 ^ fractional_trailing_zeros n ∣ n := by
  unfold fractional_trailing_zeros
  split_ifs <;> norm_num <;> omega

theorem step_scaled_int (st : ℚ) (hst : 0 < st) (hz : ∃ z : ℤ, st * 10 ^ 10 = z) :
    ∃ w : ℤ, st * 10 ^ decimal_places st = w := by
  obtain ⟨z, hz⟩ := hz
  have hzpos : 0 < z := by
    have : (0 : ℚ) < (z : ℚ) := by
      rw [← hz]; positivity
    exact_mod_cast this
  have hrhe : round_half_even (st * 10 ^ 10) = z := by
    rw [hz, round_half_even_intCast]
  have hnatAbs : (round_half_even (st * 10 ^ 10)).natAbs = z.toNat := by
    rw [hrhe]
    omega
  have hnz : z.toNat ≠ 0 := by omega
  set t := fractional_trailing_zeros z.toNat with ht
  have htle : t ≤ 10 := fractional_trailing_zeros_le _
  obtain ⟨c, hc⟩ := fractional_trailing_zeros_dvd z.toNat
  rw [← ht] at hc
  have hd : decimal_places st = 10 - t := by
    unfold decimal_places
    rw [hnatAbs, if_neg hnz]
  have hcast : st * 10 ^ 10 = ((10 : ℚ) ^ t) * (c : ℚ) := by
    rw [hz]
    have : z = ((10 ^ t * c : ℕ) : ℤ) := by omega
    rw [this]
    push_cast
    ring
  refine ⟨(c : ℤ), ?_⟩
  rw [hd]
  have hsplit : (10 : ℚ) ^ 10 = 10 ^ (10 - t) * 10 ^ t := by
    rw [← pow_add]
    congr 1
    omega
  have h10t : ((10 : ℚ) ^ t) ≠ 0 := by positivity
  have : st * (10 ^ (10 - t) * 10 ^ t) = ((10 : ℚ) ^ t) * (c : ℚ) := by
    rw [← hsplit]; exact hcast
  have : (st * 10 ^ (10 - t)) * 10 ^ t = (c : ℚ) * 10 ^ t := by
    ring_nf
    ring_nf at this
    linarith [this]
  have := mul_right_cancel₀ h10t this
  rw [this]
  push_cast
  ring

theorem floor_to_tick_int_mul (k : ℤ) (tick : ℚ) (h : 0 < tick) :
    floor_to_tick ((k : ℚ) * tick) tick = (k : ℚ) * tick := by
  unfold floor_to_tick
  rw [if_neg (not_le.mpr h), mul_div_cancel_right₀ _ (ne_of_gt h), Int.floor_intCast]

theorem ceil_to_tick_int_mul (k : ℤ) (tick : ℚ) (h : 0 < tick) :
    ceil_to_tick ((k : ℚ) * tick) tick = (k : ℚ) * tick := by
  unfold ceil_to_tick
  rw [if_neg (not_le.mpr h), mul_div_cancel_right₀ _ (ne_of_gt h), Int.ceil_intCast]

theorem floor_to_tick_is_mul (v tick : ℚ) (h : 0 < tick) :
    ∃ a : ℤ, floor_to_tick v tick = (a : ℚ) * tick :=
  ⟨⌊v / tick⌋, by unfold floor_to_tick; rw [if_neg (not_le.mpr h)]⟩

theorem ceil_to_tick_is_mul (v tick : ℚ) (h : 0 < tick) :
    ∃ a : ℤ, ceil_to_tick v tick = (a : ℚ) * tick :=
  ⟨⌈v / tick⌉, by unfold ceil_to_tick; rw [if_neg (not_le.mpr h)]⟩

theorem ceil_to_tick_ge (v tick : ℚ) : v ≤ ceil_to_tick v tick := by
  unfold ceil_to_tick
  split_ifs with h
  · exact le_refl v
  · have htick : 0 < tick := lt_of_not_le h
    have := Int.le_ceil (v / tick)
    calc v = (v / tick) * tick := by field_simp
      _ ≤ (⌈v / tick⌉ : ℚ) * tick := by
          exact mul_le_mul_of_nonneg_right this (le_of_lt htick)

theorem qty_loop_exit (price mn st : ℚ) (fuel : ℕ) (steps : ℤ) (qty : ℚ)
    (hf : fuel ≠ 0) (h : ¬ price * qty < mn) :
    qty_loop price mn st fuel steps qty = Except.ok qty := by
  cases fuel with
  | zero => exact absurd rfl hf
  | succ n => rw [qty_loop, if_neg h]

theorem qty_loop_ok_spec (price mn st : ℚ) :
    ∀ (fuel : ℕ) (steps : ℤ) (qty q : ℚ),
      qty_loop price mn st fuel steps qty = Except.ok q →
      (q = qty ∨ (∃ k : ℤ, q = (k : ℚ) * st ∧ price * qty < mn)) ∧
        ¬ price * q < mn := by
  intro fuel
  induction fuel with
  | zero =>
      intro steps qty q h
      rw [qty_loop] at h
      cases h
  | succ n ih =>
      intro steps qty q h
      rw [qty_loop] at h
      dsimp only at h
      by_cases hc : price * qty < mn
      · rw [if_pos hc] at h
        by_cases hs : (1000000 : ℤ) < steps + 1
        · rw [if_pos hs] at h
          cases h
        · rw [if_neg hs] at h
          obtain ⟨hval, hstop⟩ := ih (steps + 1) (((steps + 1 : ℤ) : ℚ) * st) q h
          refine ⟨?_, hstop⟩
          rcases hval with hq | ⟨k, hk, _⟩
          · exact Or.inr ⟨steps + 1, hq, hc⟩
          · exact Or.inr ⟨k, hk, hc⟩
      · rw [if_neg hc] at h
        cases h
        exact ⟨Or.inl rfl, hc⟩

theorem qty_loop_error_iff (price mn st : ℚ) (hp : 0 < price) (hst : 0 < st) :
    ∀ (fuel : ℕ) (steps : ℤ) (qty : ℚ), 1 ≤ steps → 1 ≤ fuel →
      (1000000 + 2 - steps : ℤ) ≤ (fuel : ℤ) →
      ((qty_loop price mn st fuel steps qty = Except.error GridError.notional_ceiling ↔
          (price * qty < mn ∧
            (1000000 ≤ steps ∨ price * (1000000 * st) < mn))) ∧
        ∀ e, qty_loop price mn st fuel steps qty = Except.error e →
          e = GridError.notional_ceiling) := by
  intro fuel
  induction fuel with
  | zero => intro steps qty _ h2 _; omega
  | succ n ih =>
      intro steps qty hsteps _ hfuel
      rw [qty_loop]
      dsimp only
      by_cases hc : price * qty < mn
      · rw [if_pos hc]
        by_cases hs : (1000000 : ℤ) < steps + 1
        · rw [if_pos hs]
          refine ⟨⟨fun _ => ⟨hc, Or.inl (by omega)⟩, fun _ => rfl⟩, ?_⟩
          intro e he
          cases he
          rfl
        · rw [if_neg hs]
          have hs' : steps + 1 ≤ 1000000 := by omega
          have h1 : (1 : ℤ) ≤ steps + 1 := by omega
          have hn1 : 1 ≤ n := by
            have : (1000000 + 2 - steps : ℤ) ≤ ((n : ℤ) + 1) := by
              push_cast at hfuel
              omega
            omega
          have h3 : (1000000 + 2 - (steps + 1) : ℤ) ≤ (n : ℤ) := by
            push_cast at hfuel ⊢
            omega
          obtain ⟨hiff, herr⟩ := ih (steps + 1) (((steps + 1 : ℤ) : ℚ) * st) h1 hn1 h3
          refine ⟨?_, herr⟩
          rw [hiff]
          constructor
          · rintro ⟨hlt, hor⟩
            refine ⟨hc, ?_⟩
            rcases hor with h | h
            · right
              have heq : ((steps + 1 : ℤ) : ℚ) = (1000000 : ℚ) := by
                exact_mod_cast (by omega : steps + 1 = 1000000)
              rw [heq, ← mul_assoc] at hlt
              rw [← mul_assoc]
              exact hlt
            · exact Or.inr h
          · rintro ⟨_, hor⟩
            rcases hor with h | h
            · exact absurd h (by omega)
            · refine ⟨?_, Or.inr h⟩
              have hle : ((steps + 1 : ℤ) : ℚ) * st ≤ (1000000 : ℚ) * st := by
                apply mul_le_mul_of_nonneg_right _ (le_of_lt hst)
                exact_mod_cast hs'
              calc price * (((steps + 1 : ℤ) : ℚ) * st)
                  ≤ price * ((1000000 : ℚ) * st) :=
                    mul_le_mul_of_nonneg_left hle (le_of_lt hp)
                _ < mn := h
      · rw [if_neg hc]
        refine ⟨⟨fun h => ?_, fun h => absurd h.1 hc⟩, fun e he => ?_⟩
        · cases h
        · cases he

theorem qty_steps0_ge_one (cfg : BotConfig) (price : ℚ) (f : SymbolFilters) :
    1 ≤ qty_steps0 cfg price f :=
  le_max_left _ _

theorem qty_initial_ge_min_qty (cfg : BotConfig) (price : ℚ) (f : SymbolFilters) :
    f.min_qty ≤ qty_initial cfg price f := by
  unfold qty_initial
  dsimp only
  split_ifs with h
  · exact le_refl _
  · exact le_of_not_lt h

theorem qty_initial_is_mul (cfg : BotConfig) (price : ℚ) (f : SymbolFilters)
    (hmq : ∃ m : ℕ, f.min_qty = (m : ℚ) * f.step_size) :
    ∃ k : ℤ, qty_initial cfg price f = (k : ℚ) * f.step_size := by
  unfold qty_initial
  dsimp only
  split_ifs with h
  · obtain ⟨m, hm⟩ := hmq
    exact ⟨(m : ℤ), by rw [hm]; push_cast; ring⟩
  · exact ⟨qty_steps0 cfg price f, rfl⟩

/-- When `compute_quantity` succeeds (under valid filters), the result is an
integer multiple of `step_size` and at least `min_qty`, and its notional
meets `min_notional`. -/
theorem compute_quantity_ok_val (cfg : BotConfig) (price : ℚ) (f : SymbolFilters)
    (v : ℚ) (hp : 0 < price) (hst : 0 < f.step_size)
    (hz : ∃ z : ℤ, f.step_size * 10 ^ 10 = z)
    (hmq : ∃ m : ℕ, f.min_qty = (m : ℚ) * f.step_size)
    (hok : compute_quantity cfg price f = Except.ok v) :
    (∃ b : ℤ, v = (b : ℚ) * f.step_size) ∧ f.min_qty ≤ v ∧
      ¬ price * v < f.min_notional := by
  unfold compute_quantity at hok
  rw [if_neg (not_le.mpr hp), if_neg (not_le.mpr hst)] at hok
  cases hloop : qty_loop price f.min_notional f.step_size QTY_FUEL
      (qty_steps0 cfg price f) (qty_initial cfg price f) with
  | error e => rw [hloop] at hok; cases hok
  | ok q =>
      rw [hloop] at hok
      cases hok
      obtain ⟨hval, hstop⟩ := qty_loop_ok_spec price f.min_notional f.step_size
        QTY_FUEL (qty_steps0 cfg price f) (qty_initial cfg price f) q hloop
      have hmul : ∃ b : ℤ, q = (b : ℚ) * f.step_size := by
        rcases hval with hq | ⟨k, hk, _⟩
        · rw [hq]; exact qty_initial_is_mul cfg price f hmq
        · exact ⟨k, hk⟩
      have hge : f.min_qty ≤ q := by
        rcases hval with hq | ⟨_, _, hlt⟩
        · rw [hq]; exact qty_initial_ge_min_qty cfg price f
        · have h1 : price * qty_initial cfg price f < price * q :=
            lt_of_lt_of_le hlt (not_lt.mp hstop)
          have h2 : qty_initial cfg price f < q :=
            lt_of_mul_lt_mul_left h1 (le_of_lt hp)
          exact le_of_lt (lt_of_le_of_lt (qty_initial_ge_min_qty cfg price f) h2)
      have hpy : pyround q (decimal_places f.step_size) = q := by
        apply pyround_int
        obtain ⟨b, hb⟩ := hmul
        obtain ⟨w, hw⟩ := step_scaled_int f.step_size hst hz
        exact ⟨b * w, by rw [hb, mul_assoc, hw]; push_cast; ring⟩
      rw [hpy]
      exact ⟨hmul, hge, hstop⟩

/-- `compute_quantity` fails (under valid filters and a positive price)
exactly when the notional loop would hit the `1_000_000`-step ceiling:
the initial quantity's notional is short, and either the initial step
count already is at/above the ceiling or even `1_000_000 * step_size`
cannot reach `min_notional`. -/
theorem compute_quantity_error_iff (cfg : BotConfig) (price : ℚ) (f : SymbolFilters)
    (hp : 0 < price) (hst : 0 < f.step_size) :
    (isErr (compute_quantity cfg price f) = true ↔
      (price * qty_initial cfg price f < f.min_notional ∧
        (1000000 ≤ qty_steps0 cfg price f ∨
          price * (1000000 * f.step_size) < f.min_notional))) := by
  have hsteps := qty_steps0_ge_one cfg price f
  have hfuel1 : 1 ≤ QTY_FUEL := by norm_num [QTY_FUEL]
  have hfuel2 : (1000000 + 2 - qty_steps0 cfg price f : ℤ) ≤ (QTY_FUEL : ℤ) := by
    norm_num [QTY_FUEL]
    omega
  obtain ⟨hiff, herr⟩ := qty_loop_error_iff price f.min_notional f.step_size hp hst
    QTY_FUEL (qty_steps0 cfg price f) (qty_initial cfg price f) hsteps hfuel1 hfuel2
  unfold compute_quantity
  rw [if_neg (not_le.mpr hp), if_neg (not_le.mpr hst)]
  cases hloop : qty_loop price f.min_notional f.step_size QTY_FUEL
      (qty_steps0 cfg price f) (qty_initial cfg price f) with
  | error e =>
      have he := herr e hloop
      subst he
      simp only [isErr, true_iff]
      exact hiff.mp hloop
  | ok q =>
      simp only [isErr]
      constructor
      · intro h
        exact absurd h Bool.false_ne_true
      · intro hcon
        have hcon2 := hiff.mpr hcon
        rw [hloop] at hcon2
        cases hcon2

theorem build_steps_prefix (mid spacing : ℚ) (cfg : BotConfig) (f : SymbolFilters) :
    ∀ (remaining step0 : ℕ) (acc : List GridLevel) (lo hi : ℚ)
      (levels : List GridLevel) (lo' hi' : ℚ),
      build_steps mid spacing cfg f remaining step0 acc lo hi =
        Except.ok (levels, lo', hi') →
      ∃ tail, levels = acc ++ tail := by
  intro remaining
  induction remaining with
  | zero =>
      intro step0 acc lo hi levels lo' hi' h
      rw [build_steps] at h
      cases h
      exact ⟨[], by simp⟩
  | succ n ih =>
      intro step0 acc lo hi levels lo' hi' h
      rw [build_steps] at h
      by_cases hbp : grid_buy_price mid spacing f.tick_size step0 ≤ 0
      · rw [if_pos hbp] at h; cases h
      · rw [if_neg hbp] at h
        cases hqb : compute_quantity cfg (grid_buy_price mid spacing f.tick_size step0) f with
        | error e => rw [hqb] at h; cases h
        | ok buy_qty =>
            rw [hqb] at h
            cases hqs : compute_quantity cfg
                (grid_sell_price mid spacing f.tick_size step0) f with
            | error e => rw [hqs] at h; cases h
            | ok sell_qty =>
                rw [hqs] at h
                dsimp only at h
                by_cases hnb : grid_buy_price mid spacing f.tick_size step0 * buy_qty <
                    f.min_notional
                · rw [if_pos hnb] at h; cases h
                · rw [if_neg hnb] at h
                  by_cases hns : grid_sell_price mid spacing f.tick_size step0 * sell_qty <
                      f.min_notional
                  · rw [if_pos hns] at h; cases h
                  · rw [if_neg hns] at h
                    obtain ⟨tail, htail⟩ := ih _ _ _ _ _ _ _ h
                    exact ⟨_, by rw [htail, List.append_assoc]⟩

theorem build_steps_shape (mid spacing : ℚ) (cfg : BotConfig) (f : SymbolFilters) :
    ∀ (remaining step0 : ℕ) (acc : List GridLevel) (lo hi : ℚ)
      (levels : List GridLevel) (lo' hi' : ℚ),
      build_steps mid spacing cfg f remaining step0 acc lo hi =
        Except.ok (levels, lo', hi') →
      ∀ j : ℕ, j < remaining →
        ∃ qb qs,
          levels.get? (acc.length + 2 * j) = some
            { index := acc.length + 2 * j, side := GridSide.BUY,
              price := grid_buy_price mid spacing f.tick_size (step0 + j),
              quantity := qb } ∧
          levels.get? (acc.length + 2 * j + 1) = some
            { index := acc.length + 2 * j + 1, side := GridSide.SELL,
              price := grid_sell_price mid spacing f.tick_size (step0 + j),
              quantity := qs } := by
  intro remaining
  induction remaining with
  | zero =>
      intro step0 acc lo hi levels lo' hi' h j hj
      omega
  | succ n ih =>
      intro step0 acc lo hi levels lo' hi' h j hj
      rw [build_steps] at h
      by_cases hbp : grid_buy_price mid spacing f.tick_size step0 ≤ 0
      · rw [if_pos hbp] at h; cases h
      · rw [if_neg hbp] at h
        cases hqb : compute_quantity cfg (grid_buy_price mid spacing f.tick_size step0) f with
        | error e => rw [hqb] at h; cases h
        | ok buy_qty =>
            rw [hqb] at h
            cases hqs : compute_quantity cfg
                (grid_sell_price mid spacing f.tick_size step0) f with
            | error e => rw [hqs] at h; cases h
            | ok sell_qty =>
                rw [hqs] at h
                dsimp only at h
                by_cases hnb : grid_buy_price mid spacing f.tick_size step0 * buy_qty <
                    f.min_notional
                · rw [if_pos hnb] at h; cases h
                · rw [if_neg hnb] at h
                  by_cases hns : grid_sell_price mid spacing f.tick_size step0 * sell_qty <
                      f.min_notional
                  · rw [if_pos hns] at h; cases h
                  · rw [if_neg hns] at h
                    cases j with
                    | zero =>
                        obtain ⟨tail, htail⟩ := build_steps_prefix mid spacing cfg f
                          _ _ _ _ _ _ _ _ h
                        refine ⟨buy_qty, sell_qty, ?_, ?_⟩
                        · rw [htail]
                          rw [List.append_assoc] at htail ⊢
                          simp only [Nat.mul_zero, Nat.add_zero]
                          rw [List.get?_append_right (by omega)]
                          simp
                        · rw [htail]
                          rw [List.append_assoc] at htail ⊢
                          simp only [Nat.mul_zero, Nat.add_zero]
                          rw [List.get?_append_right (by omega)]
                          simp
                    | succ j' =>
                        have hj' : j' < n := by omega
                        obtain ⟨qb, qs, h1, h2⟩ := ih _ _ _ _ _ _ _ h j' hj'
                        have hlen : (acc ++
                            ([{ index := acc.length, side := GridSide.BUY,
                                price := grid_buy_price mid spacing f.tick_size step0,
                                quantity := buy_qty },
                              { index := acc.length + 1, side := GridSide.SELL,
                                price := grid_sell_price mid spacing f.tick_size step0,
                                quantity := sell_qty }] : List GridLevel)).length =
                            acc.length + 2 := by
                          simp
                        rw [hlen] at h1 h2
                        refine ⟨qb, qs, ?_, ?_⟩
                        · have : acc.length + 2 + 2 * j' = acc.length + 2 * (j' + 1) := by
                            omega
                          rw [this] at h1
                          have harg : step0 + 1 + j' = step0 + (j' + 1) := by omega
                          rw [harg] at h1
                          exact h1
                        · have : acc.length + 2 + 2 * j' + 1 =
                              acc.length + 2 * (j' + 1) + 1 := by omega
                          rw [this] at h2
                          have harg : step0 + 1 + j' = step0 + (j' + 1) := by omega
                          rw [harg] at h2
                          exact h2

theorem build_steps_mem (mid spacing : ℚ) (cfg : BotConfig) (f : SymbolFilters) :
    ∀ (remaining step0 : ℕ) (acc : List GridLevel) (lo hi : ℚ)
      (levels : List GridLevel) (lo' hi' : ℚ),
      build_steps mid spacing cfg f remaining step0 acc lo hi =
        Except.ok (levels, lo', hi') →
      ∀ lvl ∈ levels, lvl ∈ acc ∨
        ∃ i : ℕ, step0 ≤ i ∧ i < step0 + remaining ∧
          ¬ lvl.price * lvl.quantity < f.min_notional ∧
          compute_quantity cfg lvl.price f = Except.ok lvl.quantity ∧
          ((lvl.side = GridSide.BUY ∧
              lvl.price = grid_buy_price mid spacing f.tick_size i ∧
              0 < lvl.price) ∨
            (lvl.side = GridSide.SELL ∧
              lvl.price = grid_sell_price mid spacing f.tick_size i)) := by
  intro remaining
  induction remaining with
  | zero =>
      intro step0 acc lo hi levels lo' hi' h lvl hl
      rw [build_steps] at h
      cases h
      exact Or.inl hl
  | succ n ih =>
      intro step0 acc lo hi levels lo' hi' h lvl hl
      rw [build_steps] at h
      by_cases hbp : grid_buy_price mid spacing f.tick_size step0 ≤ 0
      · rw [if_pos hbp] at h; cases h
      · rw [if_neg hbp] at h
        cases hqb : compute_quantity cfg (grid_buy_price mid spacing f.tick_size step0) f with
        | error e => rw [hqb] at h; cases h
        | ok buy_qty =>
            rw [hqb] at h
            cases hqs : compute_quantity cfg
                (grid_sell_price mid spacing f.tick_size step0) f with
            | error e => rw [hqs] at h; cases h
            | ok sell_qty =>
                rw [hqs] at h
                dsimp only at h
                by_cases hnb : grid_buy_price mid spacing f.tick_size step0 * buy_qty <
                    f.min_notional
                · rw [if_pos hnb] at h; cases h
                · rw [if_neg hnb] at h
                  by_cases hns : grid_sell_price mid spacing f.tick_size step0 * sell_qty <
                      f.min_notional
                  · rw [if_pos hns] at h; cases h
                  · rw [if_neg hns] at h
                    rcases ih _ _ _ _ _ _ _ h lvl hl with hmem | ⟨i, hi1, hi2, hrest⟩
                    · rcases List.mem_append.mp hmem with ha | hbs
                      · exact Or.inl ha
                      · right
                        rcases List.mem_cons.mp hbs with hb | hs0
                        · subst hb
                          exact ⟨step0, le_refl _, by omega, hnb, hqb,
                            Or.inl ⟨rfl, rfl, lt_of_not_le hbp⟩⟩
                        · have hs1 : lvl =
                              { index := acc.length + 1,
                                side := GridSide.SELL,
                                price := grid_sell_price mid spacing f.tick_size step0,
                                quantity := sell_qty } := by
                            simpa using hs0
                          subst hs1
                          exact ⟨step0, le_refl _, by omega, hns, hqs,
                            Or.inr ⟨rfl, rfl⟩⟩
                    · exact Or.inr ⟨i, by omega, by omega, hrest⟩

/-- The exact reasons a single grid step can fail: non-positive buy price,
quantity computation failure on either side, or an `_ensure_notional`
violation on either side's final rounded quantity. -/
def level_failure (mid spacing : ℚ) (cfg : BotConfig) (f : SymbolFilters) (i : ℕ) : Prop :=
  grid_buy_price mid spacing f.tick_size i ≤ 0 ∨
    isErr (compute_quantity cfg (grid_buy_price mid spacing f.tick_size i) f) = true ∨
    isErr (compute_quantity cfg (grid_sell_price mid spacing f.tick_size i) f) = true ∨
    (∃ qb, compute_quantity cfg (grid_buy_price mid spacing f.tick_size i) f =
        Except.ok qb ∧
      grid_buy_price mid spacing f.tick_size i * qb < f.min_notional) ∨
    (∃ qs, compute_quantity cfg (grid_sell_price mid spacing f.tick_size i) f =
        Except.ok qs ∧
      grid_sell_price mid spacing f.tick_size i * qs < f.min_notional)

theorem build_steps_error_iff (mid spacing : ℚ) (cfg : BotConfig) (f : SymbolFilters) :
    ∀ (remaining step0 : ℕ) (acc : List GridLevel) (lo hi : ℚ),
      isErr (build_steps mid spacing cfg f remaining step0 acc lo hi) = true ↔
        ∃ j : ℕ, j < remaining ∧ level_failure mid spacing cfg f (step0 + j) := by
  intro remaining
  induction remaining with
  | zero =>
      intro step0 acc lo hi
      rw [build_steps]
      simp [isErr]
  | succ n ih =>
      intro step0 acc lo hi
      rw [build_steps]
      by_cases hbp : grid_buy_price mid spacing f.tick_size step0 ≤ 0
      · rw [if_pos hbp]
        simp only [isErr, true_iff]
        exact ⟨0, by omega, Or.inl (by simpa using hbp)⟩
      · rw [if_neg hbp]
        cases hqb : compute_quantity cfg (grid_buy_price mid spacing f.tick_size step0) f with
        | error e =>
            simp only [isErr, true_iff]
            exact ⟨0, by omega, Or.inr (Or.inl (by simp [isErr, hqb]))⟩
        | ok buy_qty =>
            cases hqs : compute_quantity cfg
                (grid_sell_price mid spacing f.tick_size step0) f with
            | error e =>
                simp only [isErr, true_iff]
                exact ⟨0, by omega, Or.inr (Or.inr (Or.inl (by simp [isErr, hqs])))⟩
            | ok sell_qty =>
                dsimp only
                by_cases hnb : grid_buy_price mid spacing f.tick_size step0 * buy_qty <
                    f.min_notional
                · rw [if_pos hnb]
                  simp only [isErr, true_iff]
                  exact ⟨0, by omega,
                    Or.inr (Or.inr (Or.inr (Or.inl ⟨buy_qty, hqb, hnb⟩)))⟩
                · rw [if_neg hnb]
                  by_cases hns : grid_sell_price mid spacing f.tick_size step0 * sell_qty <
                      f.min_notional
                  · rw [if_pos hns]
                    simp only [isErr, true_iff]
                    exact ⟨0, by omega,
                      Or.inr (Or.inr (Or.inr (Or.inr ⟨sell_qty, hqs, hns⟩)))⟩
                  · rw [if_neg hns]
                    rw [ih]
                    constructor
                    · rintro ⟨j, hj, hfail⟩
                      exact ⟨j + 1, by omega, by
                        have : step0 + 1 + j = step0 + (j + 1) := by omega
                        rwa [this] at hfail⟩
                    · rintro ⟨j, hj, hfail⟩
                      cases j with
                      | zero =>
                          exfalso
                          rw [Nat.add_zero] at hfail
                          rcases hfail with h | h | h | ⟨qb, hq, hl⟩ | ⟨qs, hq, hl⟩
                          · exact hbp h
                          · rw [hqb] at h; simp [isErr] at h
                          · rw [hqs] at h; simp [isErr] at h
                          · rw [hqb] at hq
                            cases hq
                            exact hnb hl
                          · rw [hqs] at hq
                            cases hq
                            exact hns hl
                      | succ j' =>
                          refine ⟨j', by omega, by
                            have : step0 + (j' + 1) = step0 + 1 + j' := by omega
                            rwa [this] at hfail⟩

theorem ceil_as_neg_floor {α : Type} [LinearOrderedRing α] [FloorRing α] (a : α) :
    ⌈a⌉ = -⌊-a⌋ := by
  rw [Int.floor_neg]
  ring

/-- When the initial quantity already meets the notional, the loop exits at
once and `_compute_quantity` returns its rounding. -/
theorem compute_quantity_eval (cfg : BotConfig) (price : ℚ) (f : SymbolFilters)
    (hp : ¬ price ≤ 0) (hst : ¬ f.step_size ≤ 0)
    (hexit : ¬ price * qty_initial cfg price f < f.min_notional) :
    compute_quantity cfg price f =
      Except.ok (pyround (qty_initial cfg price f) (decimal_places f.step_size)) := by
  unfold compute_quantity
  rw [if_neg hp, if_neg hst,
    qty_loop_exit _ _ _ _ _ _ (by norm_num [QTY_FUEL]) hexit]

/-- A small demonstration configuration (`grid_spacing = 1`). -/
def cfgA : BotConfig :=
  { grid_spacing := 1, per_order_quote_usd := 10, maker_guard_ticks := 3,
    recenter_threshold := 1 }

/-- Unit filters: `tick = step = 1`, no minimum quantity or notional. -/
def filtersA : SymbolFilters :=
  { tick_size := 1, step_size := 1, min_qty := 0, min_notional := 0 }

theorem qty_initial_unit_step (price : ℚ) (f : SymbolFilters)
    (hstep : f.step_size = 1) (hmq : f.min_qty ≤ 1) :
    qty_initial cfgA price f = 1 := by
  have hsteps : qty_steps0 cfgA price f = 1 := by
    unfold qty_steps0 qty_raw preferred_base_quantity PREFERRED_BASE_QTY
    rw [hstep]
    norm_num [ceil_as_neg_floor]
  unfold qty_initial
  rw [hsteps, hstep]
  norm_num
  intro h
  exact absurd (lt_of_le_of_lt hmq h) (by norm_num)

theorem decimal_places_one : decimal_places 1 = 0 := by
  norm_num [decimal_places, round_half_even, fractional_trailing_zeros]

theorem compute_quantity_unit (price : ℚ) (hp : 0 < price) :
    compute_quantity cfgA price filtersA = Except.ok 1 := by
  have hqi : qty_initial cfgA price filtersA = 1 :=
    qty_initial_unit_step price filtersA rfl (by norm_num [filtersA])
  rw [compute_quantity_eval cfgA price filtersA (not_le.mpr hp)
    (by norm_num [filtersA]) (by rw [hqi]; norm_num [filtersA]; positivity)]
  rw [hqi]
  show Except.ok (pyround 1 (decimal_places (1 : ℚ))) = Except.ok 1
  rw [decimal_places_one]
  norm_num [pyround, round_half_even]

/-- The layout `build_grid` produces at `mid = 10`, one level per side, with
unit filters. -/
def layoutA : GridLayout :=
  { center_price := 10, lower_price := 9, upper_price := 11, spacing := 1,
    levels_per_side := 1,
    levels := [
      { index := 0, side := GridSide.BUY, price := 9, quantity := 1 },
      { index := 1, side := GridSide.SELL, price := 11, quantity := 1 }] }

theorem build_grid_layoutA : build_grid 10 cfgA filtersA 1 = Except.ok layoutA := by
  have hcqB : compute_quantity cfgA 9 filtersA = Except.ok 1 :=
    compute_quantity_unit 9 (by norm_num)
  have hcqS : compute_quantity cfgA 11 filtersA = Except.ok 1 :=
    compute_quantity_unit 11 (by norm_num)
  simp only [cfgA, filtersA] at hcqB hcqS
  norm_num [build_grid, build_steps, grid_spacing_value, grid_buy_price,
    grid_sell_price, floor_to_tick, ceil_to_tick, cfgA, filtersA, layoutA,
    ceil_as_neg_floor, hcqB, hcqS]

/-- The layout `build_grid` produces at the non-tick-aligned mid `21/2`. -/
def layoutHalf : GridLayout :=
  { center_price := 21/2, lower_price := 9, upper_price := 12, spacing := 1,
    levels_per_side := 1,
    levels := [
      { index := 0, side := GridSide.BUY, price := 9, quantity := 1 },
      { index := 1, side := GridSide.SELL, price := 12, quantity := 1 }] }

theorem build_grid_layoutHalf : build_grid (21/2) cfgA filtersA 1 = Except.ok layoutHalf := by
  have hcqB : compute_quantity cfgA 9 filtersA = Except.ok 1 :=
    compute_quantity_unit 9 (by norm_num)
  have hcqS : compute_quantity cfgA 12 filtersA = Except.ok 1 :=
    compute_quantity_unit 12 (by norm_num)
  simp only [cfgA, filtersA] at hcqB hcqS
  norm_num [build_grid, build_steps, grid_spacing_value, grid_buy_price,
    grid_sell_price, floor_to_tick, ceil_to_tick, cfgA, filtersA, layoutHalf,
    ceil_as_neg_floor, hcqB, hcqS]

/-- C4 fails as stated: at the reachable mid `21/2` (ticks of size 1), the
step-1 BUY price is floored to 9, so `center_price - price = 3/2 ≠ 1 *
spacing`. -/
theorem c4_grid_level_spacing_counterexample :
    build_grid (21/2) cfgA filtersA 1 = Except.ok layoutHalf ∧
      ((layoutHalf.levels.get? 0).map GridLevel.side = some GridSide.BUY) ∧
      ¬ ((layoutHalf.levels.get? 0).map
          (fun lvl => layoutHalf.center_price - lvl.price) =
        some ((1 : ℚ) * layoutHalf.spacing)) := by
  refine ⟨build_grid_layoutHalf, by norm_num [layoutHalf], ?_⟩
  norm_num [layoutHalf]

/-- C4 (amended): when `tick_size > 0` and `mid_price` is an integer
multiple of `tick_size`, every layout returned by `build_grid` satisfies the
claimed spacing identity: the `i`-th BUY level (1-based, stored at position
`2*(i-1)`) has `center_price - price = i * spacing`, and the `i`-th SELL
level (position `2*(i-1)+1`) has `price - center_price = i * spacing`. -/
theorem c4_grid_level_spacing (mid : ℚ) (cfg : BotConfig) (f : SymbolFilters)
    (n : ℤ) (L : GridLayout) (htick : 0 < f.tick_size)
    (hmid : ∃ m : ℤ, mid = (m : ℚ) * f.tick_size)
    (hok : build_grid mid cfg f n = Except.ok L) :
    ∀ i : ℕ, 1 ≤ i → (i : ℤ) ≤ n →
      ∃ b s_lvl, L.levels.get? (2 * (i - 1)) = some b ∧
        L.levels.get? (2 * (i - 1) + 1) = some s_lvl ∧
        b.side = GridSide.BUY ∧
        L.center_price - b.price = (i : ℚ) * L.spacing ∧
        s_lvl.side = GridSide.SELL ∧
        s_lvl.price - L.center_price = (i : ℚ) * L.spacing := by
  intro i hi1 hin
  obtain ⟨m, hm⟩ := hmid
  unfold build_grid at hok
  by_cases hm0 : mid ≤ 0
  · rw [if_pos hm0] at hok; cases hok
  · rw [if_neg hm0] at hok
    by_cases hn0 : n ≤ 0
    · rw [if_pos hn0] at hok; cases hok
    · rw [if_neg hn0] at hok
      cases hbs : build_steps mid (grid_spacing_value cfg f) cfg f n.toNat 1
          [] mid mid with
      | error e => rw [hbs] at hok; cases hok
      | ok res =>
          obtain ⟨levels, lo, hi⟩ := res
          rw [hbs] at hok
          cases hok
          have hj : i - 1 < n.toNat := by omega
          obtain ⟨qb, qs, hb, hs⟩ := build_steps_shape mid
            (grid_spacing_value cfg f) cfg f n.toNat 1 [] mid mid levels lo hi
            hbs (i - 1) hj
          simp only [List.length_nil, Nat.zero_add] at hb hs
          have hstep : 1 + (i - 1) = i := by omega
          rw [hstep] at hb hs
          refine ⟨_, _, hb, hs, rfl, ?_, rfl, ?_⟩
          · show mid - grid_buy_price mid (grid_spacing_value cfg f) f.tick_size i =
              (i : ℚ) * grid_spacing_value cfg f
            unfold grid_buy_price grid_spacing_value
            have hkey : mid - ((max 1 ⌈cfg.grid_spacing / f.tick_size⌉ : ℤ) : ℚ) *
                f.tick_size * (i : ℚ) =
                ((m - max 1 ⌈cfg.grid_spacing / f.tick_size⌉ * (i : ℤ) : ℤ) : ℚ) *
                  f.tick_size := by
              rw [hm]
              push_cast
              ring
            rw [hkey, floor_to_tick_int_mul _ _ htick, ← hkey]
            ring
          · show grid_sell_price mid (grid_spacing_value cfg f) f.tick_size i - mid =
              (i : ℚ) * grid_spacing_value cfg f
            unfold grid_sell_price grid_spacing_value
            have hkey : mid + ((max 1 ⌈cfg.grid_spacing / f.tick_size⌉ : ℤ) : ℚ) *
                f.tick_size * (i : ℚ) =
                ((m + max 1 ⌈cfg.grid_spacing / f.tick_size⌉ * (i : ℤ) : ℤ) : ℚ) *
                  f.tick_size := by
              rw [hm]
              push_cast
              ring
            rw [hkey, ceil_to_tick_int_mul _ _ htick, ← hkey]
            ring

/-- Witness for C4: the aligned build at `mid = 10` with unit ticks. -/
theorem c4_grid_level_spacing_witness :
    (0 : ℚ) < filtersA.tick_size ∧
      (∃ m : ℤ, (10 : ℚ) = (m : ℚ) * filtersA.tick_size) ∧
      ∃ b s_lvl, layoutA.levels.get? 0 = some b ∧
        layoutA.levels.get? 1 = some s_lvl ∧
        b.side = GridSide.BUY ∧
        layoutA.center_price - b.price = (1 : ℚ) * layoutA.spacing ∧
        s_lvl.side = GridSide.SELL ∧
        s_lvl.price - layoutA.center_price = (1 : ℚ) * layoutA.spacing := by
  refine ⟨by norm_num [filtersA], ⟨10, by norm_num [filtersA]⟩, ?_⟩
  have h := c4_grid_level_spacing 10 cfgA filtersA 1 layoutA
    (by norm_num [filtersA]) ⟨10, by norm_num [filtersA]⟩ build_grid_layoutA
    1 (le_refl 1) (by norm_num)
  simpa using h

/-- Filters with `step_size = 0.002` but `min_qty = 0.003`: the minimum
quantity is not a multiple of the quantity step. -/
def filtersC : SymbolFilters :=
  { tick_size := 1, step_size := 1/500, min_qty := 3/1000, min_notional := 0 }

theorem qty_initial_filtersC (price : ℚ) :
    qty_initial cfgA price filtersC = 3/1000 := by
  have hsteps : qty_steps0 cfgA price filtersC = 1 := by
    unfold qty_steps0 qty_raw preferred_base_quantity PREFERRED_BASE_QTY
    norm_num [filtersC, ceil_as_neg_floor]
  unfold qty_initial
  rw [hsteps]
  norm_num [filtersC]

theorem decimal_places_step500 : decimal_places (1/500) = 3 := by
  norm_num [decimal_places, round_half_even, fractional_trailing_zeros,
    Int.natAbs_ofNat]

theorem compute_quantity_filtersC (price : ℚ) (hp : 0 < price) :
    compute_quantity cfgA price filtersC = Except.ok (3/1000) := by
  rw [compute_quantity_eval cfgA price filtersC (not_le.mpr hp)
    (by norm_num [filtersC])
    (by rw [qty_initial_filtersC]; norm_num [filtersC]; positivity)]
  rw [qty_initial_filtersC]
  show Except.ok (pyround (3/1000) (decimal_places filtersC.step_size)) =
    Except.ok ((3 : ℚ)/1000)
  rw [show filtersC.step_size = 1/500 from rfl, decimal_places_step500]
  norm_num [pyround, round_half_even]

/-- The layout `build_grid` produces at `mid = 10` with `filtersC`. -/
def layoutC : GridLayout :=
  { center_price := 10, lower_price := 9, upper_price := 11, spacing := 1,
    levels_per_side := 1,
    levels := [
      { index := 0, side := GridSide.BUY, price := 9, quantity := 3/1000 },
      { index := 1, side := GridSide.SELL, price := 11, quantity := 3/1000 }] }

theorem build_grid_layoutC : build_grid 10 cfgA filtersC 1 = Except.ok layoutC := by
  have hcqB : compute_quantity cfgA 9 filtersC = Except.ok (3/1000) :=
    compute_quantity_filtersC 9 (by norm_num)
  have hcqS : compute_quantity cfgA 11 filtersC = Except.ok (3/1000) :=
    compute_quantity_filtersC 11 (by norm_num)
  simp only [cfgA, filtersC] at hcqB hcqS
  norm_num [build_grid, build_steps, grid_spacing_value, grid_buy_price,
    grid_sell_price, floor_to_tick, ceil_to_tick, cfgA, filtersC, layoutC,
    ceil_as_neg_floor, hcqB, hcqS]

/-- C6 fails as stated: with `step_size = 0.002` and `min_qty = 0.003`, the
`min_qty` clamp makes `build_grid` emit levels whose quantity `0.003` is not
an integer multiple of `step_size`. -/
theorem c6_grid_alignment_counterexample :
    build_grid 10 cfgA filtersC 1 = Except.ok layoutC ∧
      ((layoutC.levels.get? 0).map GridLevel.quantity = some (3/1000)) ∧
      ¬ ∃ b : ℤ, (3/1000 : ℚ) = (b : ℚ) * filtersC.step_size := by
  refine ⟨build_grid_layoutC, by norm_num [layoutC], ?_⟩
  rintro ⟨b, hb⟩
  rw [show filtersC.step_size = 1/500 from rfl] at hb
  have h2 : ((2 * b : ℤ) : ℚ) = 3 := by push_cast; linarith
  have h3 : (2 * b : ℤ) = 3 := by exact_mod_cast h2
  omega

/-- C6 (amended): when `tick_size > 0`, `step_size > 0`, `step_size` has at
most ten decimal places, and `min_qty` is an integer multiple of
`step_size`, every level of a layout returned by `build_grid` has a price
that is an integer multiple of `tick_size` and a quantity that is an
integer multiple of `step_size` and at least `min_qty`. -/
theorem c6_grid_alignment (mid : ℚ) (cfg : BotConfig) (f : SymbolFilters)
    (n : ℤ) (L : GridLayout) (htick : 0 < f.tick_size)
    (hstep : 0 < f.step_size)
    (hz : ∃ z : ℤ, f.step_size * 10 ^ 10 = z)
    (hmq : ∃ m : ℕ, f.min_qty = (m : ℚ) * f.step_size)
    (hok : build_grid mid cfg f n = Except.ok L) :
    ∀ lvl ∈ L.levels,
      (∃ a : ℤ, lvl.price = (a : ℚ) * f.tick_size) ∧
        (∃ b : ℤ, lvl.quantity = (b : ℚ) * f.step_size) ∧
        f.min_qty ≤ lvl.quantity := by
  intro lvl hl
  unfold build_grid at hok
  by_cases hm0 : mid ≤ 0
  · rw [if_pos hm0] at hok; cases hok
  · rw [if_neg hm0] at hok
    by_cases hn0 : n ≤ 0
    · rw [if_pos hn0] at hok; cases hok
    · rw [if_neg hn0] at hok
      cases hbs : build_steps mid (grid_spacing_value cfg f) cfg f n.toNat 1
          [] mid mid with
      | error e => rw [hbs] at hok; cases hok
      | ok res =>
          obtain ⟨levels, lo, hi⟩ := res
          rw [hbs] at hok
          cases hok
          have hmem := build_steps_mem mid (grid_spacing_value cfg f) cfg f
            n.toNat 1 [] mid mid levels lo hi hbs lvl hl
          rcases hmem with habs | ⟨i, _, _, _, hcq, hside⟩
          · simp at habs
          · have hsp : 0 < grid_spacing_value cfg f := by
              unfold grid_spacing_value
              have h1 : (1 : ℤ) ≤ max 1 ⌈cfg.grid_spacing / f.tick_size⌉ :=
                le_max_left _ _
              have h1' : (0 : ℚ) < ((max 1 ⌈cfg.grid_spacing / f.tick_size⌉ : ℤ) : ℚ) := by
                exact_mod_cast lt_of_lt_of_le Int.zero_lt_one h1
              exact mul_pos h1' htick
            have hp : 0 < lvl.price := by
              rcases hside with ⟨_, _, hpos⟩ | ⟨_, hprice⟩
              · exact hpos
              · rw [hprice]
                unfold grid_sell_price
                have h1 : 0 < mid + grid_spacing_value cfg f * (i : ℚ) := by
                  have h2 : (0 : ℚ) ≤ grid_spacing_value cfg f * (i : ℚ) :=
                    mul_nonneg (le_of_lt hsp) (by positivity)
                  linarith [lt_of_not_le hm0]
                exact lt_of_lt_of_le h1 (ceil_to_tick_ge _ _)
            obtain ⟨hmul, hge, _⟩ := compute_quantity_ok_val cfg lvl.price f
              lvl.quantity hp hstep hz hmq hcq
            refine ⟨?_, hmul, hge⟩
            rcases hside with ⟨_, hprice, _⟩ | ⟨_, hprice⟩
            · rw [hprice]
              exact floor_to_tick_is_mul _ _ htick
            · rw [hprice]
              exact ceil_to_tick_is_mul _ _ htick

/-- Witness for C6: the unit-filter build at `mid = 10`. -/
theorem c6_grid_alignment_witness :
    (0 : ℚ) < filtersA.tick_size ∧ (0 : ℚ) < filtersA.step_size ∧
      (∃ z : ℤ, filtersA.step_size * 10 ^ 10 = z) ∧
      (∃ m : ℕ, filtersA.min_qty = (m : ℚ) * filtersA.step_size) ∧
      ∀ lvl ∈ layoutA.levels,
        (∃ a : ℤ, lvl.price = (a : ℚ) * filtersA.tick_size) ∧
          (∃ b : ℤ, lvl.quantity = (b : ℚ) * filtersA.step_size) ∧
          filtersA.min_qty ≤ lvl.quantity :=
  ⟨by norm_num [filtersA], by norm_num [filtersA],
    ⟨10 ^ 10, by norm_num [filtersA]⟩, ⟨0, by norm_num [filtersA]⟩,
    c6_grid_alignment 10 cfgA filtersA 1 layoutA (by norm_num [filtersA])
      (by norm_num [filtersA]) ⟨10 ^ 10, by norm_num [filtersA]⟩
      ⟨0, by norm_num [filtersA]⟩ build_grid_layoutA⟩

/-- The quantity loop hits its `1_000_000`-step safety ceiling: the initial
quantity's notional is short of `min_notional`, and either the initial step
count is already at the ceiling or even `1_000_000 * step_size` of notional
cannot reach it. -/
def quantity_ceiling (cfg : BotConfig) (price : ℚ) (f : SymbolFilters) : Prop :=
  price * qty_initial cfg price f < f.min_notional ∧
    (1000000 ≤ qty_steps0 cfg price f ∨
      price * (1000000 * f.step_size) < f.min_notional)

theorem grid_sell_price_pos (mid : ℚ) (cfg : BotConfig) (f : SymbolFilters)
    (i : ℕ) (hm0 : 0 < mid) (htick : 0 < f.tick_size) :
    0 < grid_sell_price mid (grid_spacing_value cfg f) f.tick_size i := by
  have hsp : 0 < grid_spacing_value cfg f := by
    unfold grid_spacing_value
    have h1 : (1 : ℤ) ≤ max 1 ⌈cfg.grid_spacing / f.tick_size⌉ := le_max_left _ _
    have h1' : (0 : ℚ) < ((max 1 ⌈cfg.grid_spacing / f.tick_size⌉ : ℤ) : ℚ) := by
      exact_mod_cast lt_of_lt_of_le Int.zero_lt_one h1
    exact mul_pos h1' htick
  unfold grid_sell_price
  have h1 : 0 < mid + grid_spacing_value cfg f * (i : ℚ) := by
    have h2 : (0 : ℚ) ≤ grid_spacing_value cfg f * (i : ℚ) :=
      mul_nonneg (le_of_lt hsp) (by positivity)
    linarith
  exact lt_of_lt_of_le h1 (ceil_to_tick_ge _ _)

theorem level_failure_iff_spec (mid : ℚ) (cfg : BotConfig) (f : SymbolFilters)
    (i : ℕ) (hm0 : 0 < mid) (htick : 0 < f.tick_size) (hstep : 0 < f.step_size) :
    level_failure mid (grid_spacing_value cfg f) cfg f i ↔
      (grid_buy_price mid (grid_spacing_value cfg f) f.tick_size i ≤ 0 ∨
        quantity_ceiling cfg
          (grid_buy_price mid (grid_spacing_value cfg f) f.tick_size i) f ∨
        quantity_ceiling cfg
          (grid_sell_price mid (grid_spacing_value cfg f) f.tick_size i) f ∨
        (∃ qb, compute_quantity cfg
            (grid_buy_price mid (grid_spacing_value cfg f) f.tick_size i) f =
            Except.ok qb ∧
          grid_buy_price mid (grid_spacing_value cfg f) f.tick_size i * qb <
            f.min_notional) ∨
        (∃ qs, compute_quantity cfg
            (grid_sell_price mid (grid_spacing_value cfg f) f.tick_size i) f =
            Except.ok qs ∧
          grid_sell_price mid (grid_spacing_value cfg f) f.tick_size i * qs <
            f.min_notional)) := by
  have hsell := grid_sell_price_pos mid cfg f i hm0 htick
  unfold level_failure quantity_ceiling
  constructor
  · rintro (h | h | h | h | h)
    · exact Or.inl h
    · by_cases hbp : grid_buy_price mid (grid_spacing_value cfg f) f.tick_size i ≤ 0
      · exact Or.inl hbp
      · exact Or.inr (Or.inl ((compute_quantity_error_iff cfg _ f
          (lt_of_not_le hbp) hstep).mp h))
    · exact Or.inr (Or.inr (Or.inl ((compute_quantity_error_iff cfg _ f
        hsell hstep).mp h)))
    · exact Or.inr (Or.inr (Or.inr (Or.inl h)))
    · exact Or.inr (Or.inr (Or.inr (Or.inr h)))
  · rintro (h | h | h | h | h)
    · exact Or.inl h
    · by_cases hbp : grid_buy_price mid (grid_spacing_value cfg f) f.tick_size i ≤ 0
      · exact Or.inl hbp
      · exact Or.inr (Or.inl ((compute_quantity_error_iff cfg _ f
          (lt_of_not_le hbp) hstep).mpr h))
    · exact Or.inr (Or.inr (Or.inl ((compute_quantity_error_iff cfg _ f
        hsell hstep).mpr h)))
    · exact Or.inr (Or.inr (Or.inr (Or.inl h)))
    · exact Or.inr (Or.inr (Or.inr (Or.inr h)))

/-- C5 (amended): with valid filters (`tick_size > 0`, `step_size > 0`),
`build_grid` fails exactly when the mid price is non-positive, the level
count is non-positive, or some step `i ∈ [1, n]` has a non-positive buy
price, hits the quantity-ceiling on either side's price, or produces a
final rounded quantity whose notional is below `min_notional` on either
side; and every successfully produced layout has only levels whose notional
meets `min_notional`. -/
theorem c5_build_grid_failure (mid : ℚ) (cfg : BotConfig) (f : SymbolFilters)
    (n : ℤ) (htick : 0 < f.tick_size) (hstep : 0 < f.step_size) :
    (isErr (build_grid mid cfg f n) = true ↔
      (mid ≤ 0 ∨ n ≤ 0 ∨
        ∃ i : ℕ, 1 ≤ i ∧ (i : ℤ) ≤ n ∧
          (grid_buy_price mid (grid_spacing_value cfg f) f.tick_size i ≤ 0 ∨
            quantity_ceiling cfg
              (grid_buy_price mid (grid_spacing_value cfg f) f.tick_size i) f ∨
            quantity_ceiling cfg
              (grid_sell_price mid (grid_spacing_value cfg f) f.tick_size i) f ∨
            (∃ qb, compute_quantity cfg
                (grid_buy_price mid (grid_spacing_value cfg f) f.tick_size i) f =
                Except.ok qb ∧
              grid_buy_price mid (grid_spacing_value cfg f) f.tick_size i * qb <
                f.min_notional) ∨
            (∃ qs, compute_quantity cfg
                (grid_sell_price mid (grid_spacing_value cfg f) f.tick_size i) f =
                Except.ok qs ∧
              grid_sell_price mid (grid_spacing_value cfg f) f.tick_size i * qs <
                f.min_notional)))) ∧
      (∀ L, build_grid mid cfg f n = Except.ok L →
        ∀ lvl ∈ L.levels, f.min_notional ≤ lvl.price * lvl.quantity) := by
  constructor
  · unfold build_grid
    by_cases hm0 : mid ≤ 0
    · rw [if_pos hm0]
      simp only [isErr, true_iff]
      exact Or.inl hm0
    · rw [if_neg hm0]
      by_cases hn0 : n ≤ 0
      · rw [if_pos hn0]
        simp only [isErr, true_iff]
        exact Or.inr (Or.inl hn0)
      · rw [if_neg hn0]
        have hmatch : ∀ r : Except GridError (List GridLevel × ℚ × ℚ),
            isErr (match r with
              | Except.error e => (Except.error e : Except GridError GridLayout)
              | Except.ok (levels, lowest, highest) =>
                  Except.ok
                    { center_price := mid, lower_price := lowest,
                      upper_price := highest, spacing := grid_spacing_value cfg f,
                      levels_per_side := n, levels := levels }) = isErr r := by
          intro r
          cases r with
          | error e => rfl
          | ok res => obtain ⟨a, b, c⟩ := res; rfl
        rw [hmatch, build_steps_error_iff]
        constructor
        · rintro ⟨j, hj, hfail⟩
          refine Or.inr (Or.inr ⟨1 + j, by omega, by omega, ?_⟩)
          exact (level_failure_iff_spec mid cfg f (1 + j) (lt_of_not_le hm0)
            htick hstep).mp hfail
        · rintro (h | h | ⟨i, hi1, hi2, hspec⟩)
          · exact absurd h hm0
          · exact absurd h hn0
          · refine ⟨i - 1, by omega, ?_⟩
            have heq : 1 + (i - 1) = i := by omega
            rw [heq]
            exact (level_failure_iff_spec mid cfg f i (lt_of_not_le hm0)
              htick hstep).mpr hspec
  · intro L hok lvl hl
    unfold build_grid at hok
    by_cases hm0 : mid ≤ 0
    · rw [if_pos hm0] at hok; cases hok
    · rw [if_neg hm0] at hok
      by_cases hn0 : n ≤ 0
      · rw [if_pos hn0] at hok; cases hok
      · rw [if_neg hn0] at hok
        cases hbs : build_steps mid (grid_spacing_value cfg f) cfg f n.toNat 1
            [] mid mid with
        | error e => rw [hbs] at hok; cases hok
        | ok res =>
            obtain ⟨levels, lo, hi⟩ := res
            rw [hbs] at hok
            cases hok
            have hmem := build_steps_mem mid (grid_spacing_value cfg f) cfg f
              n.toNat 1 [] mid mid levels lo hi hbs lvl hl
            rcases hmem with habs | ⟨_, _, _, hnot, _, _⟩
            · simp at habs
            · exact not_lt.mp hnot

/-- Witness for C5: with unit filters at `mid = 10`, the layout is produced
and every level's notional meets the (zero) minimum. -/
theorem c5_build_grid_failure_witness :
    (0 : ℚ) < filtersA.tick_size ∧ (0 : ℚ) < filtersA.step_size ∧
      ∀ lvl ∈ layoutA.levels, filtersA.min_notional ≤ lvl.price * lvl.quantity :=
  ⟨by norm_num [filtersA], by norm_num [filtersA],
    (c5_build_grid_failure 10 cfgA filtersA 1 (by norm_num [filtersA])
      (by norm_num [filtersA])).2 layoutA build_grid_layoutA⟩

/-- Filters with `min_qty = 2.5` (clamping the quantity above the step
grid) and `min_notional = 2.3`: rounding `2.5` half-to-even drops the
quantity to `2`, whose notional at price 1 is below the minimum. -/
def filtersB : SymbolFilters :=
  { tick_size := 1, step_size := 1, min_qty := 5/2, min_notional := 23/10 }

theorem qty_initial_filtersB (price : ℚ) :
    qty_initial cfgA price filtersB = 5/2 := by
  have hsteps : qty_steps0 cfgA price filtersB = 1 := by
    unfold qty_steps0 qty_raw preferred_base_quantity PREFERRED_BASE_QTY
    norm_num [filtersB, ceil_as_neg_floor]
  unfold qty_initial
  rw [hsteps]
  norm_num [filtersB]

theorem compute_quantity_filtersB (price : ℚ) (hp : 0 < price)
    (hnot : ¬ price * (5/2) < 23/10) :
    compute_quantity cfgA price filtersB = Except.ok 2 := by
  rw [compute_quantity_eval cfgA price filtersB (not_le.mpr hp)
    (by norm_num [filtersB])
    (by rw [qty_initial_filtersB]; exact hnot)]
  rw [qty_initial_filtersB]
  show Except.ok (pyround (5/2) (decimal_places filtersB.step_size)) =
    Except.ok (2 : ℚ)
  rw [show filtersB.step_size = 1 from rfl, decimal_places_one]
  norm_num [pyround, round_half_even]

theorem build_grid_filtersB_err :
    build_grid 2 cfgA filtersB 1 = Except.error GridError.below_min_notional := by
  have hcqB : compute_quantity cfgA 1 filtersB = Except.ok 2 :=
    compute_quantity_filtersB 1 (by norm_num) (by norm_num)
  have hcqS : compute_quantity cfgA 3 filtersB = Except.ok 2 :=
    compute_quantity_filtersB 3 (by norm_num) (by norm_num)
  simp only [cfgA, filtersB] at hcqB hcqS
  norm_num [build_grid, build_steps, grid_spacing_value, grid_buy_price,
    grid_sell_price, floor_to_tick, ceil_to_tick, cfgA, filtersB,
    ceil_as_neg_floor, hcqB, hcqS]

/-- C5 fails as stated: at `mid = 2` with `filtersB`, `build_grid` raises
(the rounded buy quantity `2` has notional `2 < 2.3`) although none of the
claim's four failure conditions holds: the mid and level count are
positive, the only buy price is `1 > 0`, and the quantity derivation meets
`min_notional` without approaching the `10^6`-increment ceiling (both in
the code's sense and in the naive `10^6 * step_size` sense). -/
theorem c5_build_grid_failure_counterexample :
    isErr (build_grid 2 cfgA filtersB 1) = true ∧
      ¬ ((2 : ℚ) ≤ 0) ∧ ¬ ((1 : ℤ) ≤ 0) ∧
      (∀ i : ℕ, 1 ≤ i → (i : ℤ) ≤ 1 →
        0 < grid_buy_price 2 (grid_spacing_value cfgA filtersB)
            filtersB.tick_size i ∧
          ¬ quantity_ceiling cfgA (grid_buy_price 2
              (grid_spacing_value cfgA filtersB) filtersB.tick_size i) filtersB ∧
          ¬ quantity_ceiling cfgA (grid_sell_price 2
              (grid_spacing_value cfgA filtersB) filtersB.tick_size i) filtersB ∧
          ¬ (grid_buy_price 2 (grid_spacing_value cfgA filtersB)
              filtersB.tick_size i * (1000000 * filtersB.step_size) <
            filtersB.min_notional)) := by
  have hbuy : ∀ i : ℕ, i = 1 →
      grid_buy_price 2 (grid_spacing_value cfgA filtersB) filtersB.tick_size i = 1 := by
    intro i hi
    subst hi
    norm_num [grid_buy_price, grid_spacing_value, floor_to_tick, cfgA,
      filtersB, ceil_as_neg_floor]
  have hsell : ∀ i : ℕ, i = 1 →
      grid_sell_price 2 (grid_spacing_value cfgA filtersB) filtersB.tick_size i = 3 := by
    intro i hi
    subst hi
    norm_num [grid_sell_price, grid_spacing_value, ceil_to_tick, cfgA,
      filtersB, ceil_as_neg_floor]
  refine ⟨by rw [build_grid_filtersB_err]; rfl, by norm_num, by norm_num, ?_⟩
  intro i h1 h2
  have hi : i = 1 := by omega
  rw [hbuy i hi, hsell i hi]
  refine ⟨by norm_num, ?_, ?_, by norm_num [filtersB]⟩
  · rintro ⟨hshort, _⟩
    rw [qty_initial_filtersB] at hshort
    norm_num [filtersB] at hshort
  · rintro ⟨hshort, _⟩
    rw [qty_initial_filtersB] at hshort
    norm_num [filtersB] at hshort

end Aster
